import Mathlib

/-!
Verification of cloudflare-domain-controller.

A shallow embedding of the Go sources `core/cloudflare.go`, `cmd/add.go`,
`cmd/list.go`, `cmd/delete.go`, `cmd/update.go` and of the mock server of
`core/cloudflare_test.go`, followed by theorems about them.

Conventions of the embedding:

* a Go `string` / `[]byte` is a list of elements (`Str`); `len` is the list
  length and slicing is by element, as Go slices strings by byte;
* a Go slice expression whose index is out of range panics; slicing returns
  an `Option` whose `none` is that panic;
* a Go function returning `(T, error)` returns an `Outcome T`: a value, an
  error with its message, or a run-time panic;
* the HTTP stack and the JSON library are parameters (`Net`, `JSONLib`);
  the remote server carries its own state, passed explicitly (`World`);
* the mock server of the test is reached through a URL library (`URLLib`),
  a parameter as well, of which `goURLLib` models Go's `net/url`.
-/

namespace Cloudflare

/-! ## Go strings -/

/-- A Go string (or byte slice): the sequence of its elements. -/
abbrev Str := List Char

/-- Go `len(s)` as a Go `int`. -/
def len (s : Str) : Int := (s.length : Int)

/-- Go `s[i:]`; `none` is the run-time panic for an index out of range. -/
def sliceFrom (s : Str) (i : Int) : Option Str :=
  if 0 ≤ i ∧ i ≤ len s then some (s.drop i.toNat) else none

/-- Go `s[:j]`; `none` is the run-time panic for an index out of range. -/
def sliceTo (s : Str) (j : Int) : Option Str :=
  if 0 ≤ j ∧ j ≤ len s then some (s.take j.toNat) else none

/-! ## `cmd/add.go`, `cmd/list.go`, `cmd/delete.go`, `cmd/update.go`: record names -/

/-- The `fullName` computed by `addCmd.Run` (add.go, lines 33-39) from the
configured `DomainName` and the `subdomain` argument; `none` is a panic. -/
def addCmd_fullName (DomainName subdomain : Str) : Option Str :=
  if DomainName ≠ "".toList then
    if len subdomain ≤ len DomainName then
      some (subdomain ++ ".".toList ++ DomainName)
    else if len subdomain > len DomainName then
      match sliceFrom subdomain (len subdomain - len DomainName - 1) with
      | none => none
      | some tail =>
        if tail ≠ ".".toList ++ DomainName then
          some (subdomain ++ ".".toList ++ DomainName)
        else some subdomain
    else some subdomain
  else some subdomain

/-- The `fullName` computed inside `GetDNSRecordByName` (cloudflare.go,
lines 151-158) from the configured `DomainName` and the `name` argument;
`none` is a panic. -/
def GetDNSRecordByName_fullName (DomainName name : Str) : Option Str :=
  if DomainName ≠ "".toList then
    if len name ≤ len DomainName then
      some (name ++ ".".toList ++ DomainName)
    else if len name > len DomainName then
      match sliceFrom name (len name - len DomainName - 1) with
      | none => none
      | some tail =>
        if tail ≠ ".".toList ++ DomainName then
          some (name ++ ".".toList ++ DomainName)
        else some name
    else some name
  else some name

/-- The `fullName` computed by `deleteCmd.Run` (delete.go, lines 24-31) and,
by the same text, by `updateCmd.Run` (update.go, lines 26-33); `none` is a
panic. -/
def deleteCmd_fullName (DomainName subdomain : Str) : Option Str :=
  if DomainName ≠ "".toList then
    if len subdomain ≤ len DomainName then
      some (subdomain ++ ".".toList ++ DomainName)
    else
      match sliceFrom subdomain (len subdomain - len DomainName) with
      | none => none
      | some tail =>
        if tail ≠ DomainName then
          some (subdomain ++ ".".toList ++ DomainName)
        else some subdomain
  else some subdomain

/-- The `fullName` computed by `updateCmd.Run` (update.go, lines 26-33). -/
def updateCmd_fullName (DomainName subdomain : Str) : Option Str :=
  if DomainName ≠ "".toList then
    if len subdomain ≤ len DomainName then
      some (subdomain ++ ".".toList ++ DomainName)
    else
      match sliceFrom subdomain (len subdomain - len DomainName) with
      | none => none
      | some tail =>
        if tail ≠ DomainName then
          some (subdomain ++ ".".toList ++ DomainName)
        else some subdomain
  else some subdomain

/-- The `displayName` computed by `listCmd.Run` (list.go, lines 36-42) from
the configured `DomainName` and a record's `Name`; `none` is a panic. -/
def listCmd_displayName (DomainName Name : Str) : Option Str :=
  if DomainName ≠ "".toList ∧ len Name > len DomainName then
    match sliceFrom Name (len Name - len DomainName) with
    | none => none
    | some tail =>
      if tail = DomainName then
        sliceTo Name (len Name - len DomainName - 1)
      else some Name
  else some Name

/-! ## `core/cloudflare.go`: data model -/

/-- The result of a Go function returning `(T, error)`: a value with a nil
error, a non-nil error (given by its message), or a run-time panic. -/
inductive Outcome (α : Type) where
  | ok (a : α)
  | error (msg : Str)
  | panic
deriving DecidableEq, Repr

/-- The struct `Config` (cloudflare.go, lines 13-18). -/
structure Config where
  APIToken : Str
  ZoneID : Str
  BaseURL : Str
  DomainName : Str
deriving DecidableEq, Repr

/-- The method `Config.Validate` (cloudflare.go, lines 31-42); `none` is the
nil error. -/
def Config.Validate (c : Config) : Option Str :=
  if c.APIToken = "".toList then
    some "CLOUDFLARE_API_TOKEN no está configurado".toList
  else if c.ZoneID = "".toList then
    some "CLOUDFLARE_ZONE_ID no está configurado".toList
  else if c.DomainName = "".toList then
    some "CLOUDFLARE_DOMAIN_NAME no está configurado".toList
  else none

/-- The struct `DNSRecord` (cloudflare.go, lines 45-52); the field `Type` is
written `Type_`. The field `TTL` is a Go `int`: the records the client builds
from a response have it between `minInt` and `maxInt` (see `goInt`). -/
structure DNSRecord where
  ID : Str
  Name : Str
  Type_ : Str
  Content : Str
  TTL : Int
  Proxied : Bool
deriving DecidableEq, Repr

/-- A value decoded by `encoding/json` into an `interface{}`: `nil`, `bool`,
`float64` (given by its rational value), `string`, `[]interface{}` or
`map[string]interface{}`. -/
inductive JSON where
  | null
  | bool (b : Bool)
  | num (v : ℚ)
  | str (s : Str)
  | arr (xs : List JSON)
  | obj (kvs : List (Str × JSON))

/-- A Go `map[string]interface{}`, as the list of its entries. -/
abbrev GoMap := List (Str × JSON)

/-- Go `m[key]` on a `map[string]interface{}`: the value stored under `key`,
or the nil interface when the key is absent. -/
def GoMap.index (m : GoMap) (key : Str) : JSON :=
  match m.find? (fun kv => decide (kv.1 = key)) with
  | some kv => kv.2
  | none => JSON.null

/-- The type assertion `v.([]interface{})`; `none` when `v` holds another
type (the `ok == false` of the two-valued form, the panic of the one-valued
form). -/
def JSON.assertArray : JSON → Option (List JSON)
  | JSON.arr xs => some xs
  | _ => none

/-- The type assertion `v.(map[string]interface{})`. -/
def JSON.assertMap : JSON → Option GoMap
  | JSON.obj kvs => some kvs
  | _ => none

/-- The type assertion `v.(string)`. -/
def JSON.assertString : JSON → Option Str
  | JSON.str s => some s
  | _ => none

/-- The type assertion `v.(float64)`. -/
def JSON.assertFloat64 : JSON → Option ℚ
  | JSON.num v => some v
  | _ => none

/-- The type assertion `v.(bool)`. -/
def JSON.assertBool : JSON → Option Bool
  | JSON.bool b => some b
  | _ => none

/-- The least value of a Go `int` (64 bits). -/
def minInt : Int := -9223372036854775808

/-- The greatest value of a Go `int` (64 bits). -/
def maxInt : Int := 9223372036854775807

/-- The conversion `int(f)` of a `float64`. When the value with its fraction
discarded (truncation towards zero) is representable as an `int`, that is the
result. Otherwise Go leaves the result to the implementation; the value given
here is the one of amd64, the least `int`. -/
def goInt (f : ℚ) : Int :=
  if minInt ≤ Int.tdiv f.num (f.den : Int) ∧ Int.tdiv f.num (f.den : Int) ≤ maxInt then
    Int.tdiv f.num (f.den : Int)
  else minInt

/-! ## The HTTP stack and the JSON library -/

/-- An HTTP request as built by `makeRequest`: method, URL, the headers set on
it and the body (`none` for a nil `io.Reader`). -/
structure Request where
  Method : Str
  URL : Str
  Header : List (Str × Str)
  Body : Option Str
deriving DecidableEq, Repr

/-- An HTTP response: `StatusCode`, the status line `Status`, and the outcome
of `io.ReadAll(resp.Body)` (the bytes read, or the error of the read). -/
structure Response where
  StatusCode : Int
  Status : Str
  Body : Except Str Str

/-- The package `net/http` together with the remote server, whose state has
type `σ`. `NewRequest method url` is the error of `http.NewRequest` (`none`
when there is none); `Do` is `client.Do`: it sends a request to the server in
a given state and yields the response, or a transport error, and the server's
next state. -/
structure Net (σ : Type) where
  NewRequest : Str → Str → Option Str
  Do : σ → Request → Except Str Response × σ

/-- What lies outside the client: the state of the remote server and the
requests sent so far, oldest first. -/
structure World (σ : Type) where
  server : σ
  sent : List Request

/-- The package `encoding/json`. `Marshal` is `json.Marshal` of a `*DNSRecord`;
`Unmarshal` is `json.Unmarshal` into a `map[string]interface{}`;
`UnmarshalRecord` is `json.Unmarshal` into a zero `DNSRecord`, its error
dropped (as the mock server calls it); `Encode` is `json.NewEncoder(w).Encode`
of a value. -/
structure JSONLib where
  Marshal : DNSRecord → Except Str Str
  Unmarshal : Str → Except Str GoMap
  UnmarshalRecord : Str → DNSRecord
  Encode : JSON → Str

/-! ## `core/cloudflare.go`: the client -/

/-- The request `makeRequest` builds (cloudflare.go, lines 68-74): the one of
`http.NewRequest(method, url, body)` with the two headers set on it. -/
def authRequest (config : Config) (method url : Str) (body : Option Str) : Request :=
  { Method := method, URL := url,
    Header := [("Authorization".toList, "Bearer ".toList ++ config.APIToken),
               ("Content-Type".toList, "application/json".toList)],
    Body := body }

/-- The method `CloudflareClient.makeRequest` (cloudflare.go, lines 67-93). -/
def makeRequest {σ : Type} (net : Net σ) (config : Config)
    (method url : Str) (body : Option Str) (w : World σ) : Outcome Str × World σ :=
  match net.NewRequest method url with
  | some err => (Outcome.error err, w)
  | none =>
    let req : Request := authRequest config method url body
    match net.Do w.server req with
    | (Except.error err, s) => (Outcome.error err, { server := s, sent := w.sent ++ [req] })
    | (Except.ok resp, s) =>
      let w1 : World σ := { server := s, sent := w.sent ++ [req] }
      match resp.Body with
      | Except.error err => (Outcome.error err, w1)
      | Except.ok respBody =>
        if resp.StatusCode < 200 ∨ resp.StatusCode ≥ 300 then
          (Outcome.error ("error en la solicitud: ".toList ++ resp.Status ++ " - ".toList
            ++ respBody), w1)
        else (Outcome.ok respBody, w1)

/-- What a call on a `*DNSRecord` leaves behind: the returned error (`ok ()`
for nil), the record the pointer refers to after the call, and the world. -/
structure CallResult (σ : Type) where
  err : Outcome Unit
  record : DNSRecord
  world : World σ

/-- The method `CloudflareClient.CreateDNSRecord` (cloudflare.go, lines
96-111). The body never assigns through `record`. -/
def CreateDNSRecord {σ : Type} (net : Net σ) (lib : JSONLib) (config : Config)
    (record : DNSRecord) (w : World σ) : CallResult σ :=
  match config.Validate with
  | some err => { err := Outcome.error err, record := record, world := w }
  | none =>
    let url := config.BaseURL ++ "/zones/".toList ++ config.ZoneID ++ "/dns_records".toList
    match lib.Marshal record with
    | Except.error err => { err := Outcome.error err, record := record, world := w }
    | Except.ok jsonData =>
      match makeRequest net config "POST".toList url (some jsonData) w with
      | (Outcome.ok _, w1) => { err := Outcome.ok (), record := record, world := w1 }
      | (Outcome.error err, w1) => { err := Outcome.error err, record := record, world := w1 }
      | (Outcome.panic, w1) => { err := Outcome.panic, record := record, world := w1 }

/-- The method `CloudflareClient.UpdateDNSRecord` (cloudflare.go, lines
114-129). -/
def UpdateDNSRecord {σ : Type} (net : Net σ) (lib : JSONLib) (config : Config)
    (recordID : Str) (record : DNSRecord) (w : World σ) : CallResult σ :=
  match config.Validate with
  | some err => { err := Outcome.error err, record := record, world := w }
  | none =>
    let url := config.BaseURL ++ "/zones/".toList ++ config.ZoneID ++ "/dns_records/".toList
      ++ recordID
    match lib.Marshal record with
    | Except.error err => { err := Outcome.error err, record := record, world := w }
    | Except.ok jsonData =>
      match makeRequest net config "PATCH".toList url (some jsonData) w with
      | (Outcome.ok _, w1) => { err := Outcome.ok (), record := record, world := w1 }
      | (Outcome.error err, w1) => { err := Outcome.error err, record := record, world := w1 }
      | (Outcome.panic, w1) => { err := Outcome.panic, record := record, world := w1 }

/-- The method `CloudflareClient.DeleteDNSRecord` (cloudflare.go, lines
132-142). -/
def DeleteDNSRecord {σ : Type} (net : Net σ) (config : Config)
    (recordID : Str) (w : World σ) : Outcome Unit × World σ :=
  match config.Validate with
  | some err => (Outcome.error err, w)
  | none =>
    let url := config.BaseURL ++ "/zones/".toList ++ config.ZoneID ++ "/dns_records/".toList
      ++ recordID
    match makeRequest net config "DELETE".toList url none w with
    | (Outcome.ok _, w1) => (Outcome.ok (), w1)
    | (Outcome.error err, w1) => (Outcome.error err, w1)
    | (Outcome.panic, w1) => (Outcome.panic, w1)

/-- The conversion of one element of `result` into a `DNSRecord`: the
statements `recordData := item.(map[string]interface{})` and `record :=
&DNSRecord{...}` (cloudflare.go, lines 180-189 in `GetDNSRecordByName`, and by
the same text lines 223-232 in `ListDNSRecords`). Every type assertion is of
the one-valued form, which panics when the value holds another type; `none`
is that panic. -/
def recordFromItem (item : JSON) : Option DNSRecord :=
  match item.assertMap with
  | none => none
  | some recordData =>
    match (recordData.index "id".toList).assertString with
    | none => none
    | some id =>
      match (recordData.index "name".toList).assertString with
      | none => none
      | some name =>
        match (recordData.index "type".toList).assertString with
        | none => none
        | some type =>
          match (recordData.index "content".toList).assertString with
          | none => none
          | some content =>
            match (recordData.index "ttl".toList).assertFloat64 with
            | none => none
            | some ttl =>
              match (recordData.index "proxied".toList).assertBool with
              | none => none
              | some proxied =>
                some { ID := id, Name := name, Type_ := type, Content := content,
                       TTL := goInt ttl, Proxied := proxied }

/-- The method `CloudflareClient.GetDNSRecordByName` (cloudflare.go, lines
145-192). -/
def GetDNSRecordByName {σ : Type} (net : Net σ) (lib : JSONLib) (config : Config)
    (name : Str) (w : World σ) : Outcome DNSRecord × World σ :=
  match config.Validate with
  | some err => (Outcome.error err, w)
  | none =>
    match GetDNSRecordByName_fullName config.DomainName name with
    | none => (Outcome.panic, w)
    | some fullName =>
      let url := config.BaseURL ++ "/zones/".toList ++ config.ZoneID
        ++ "/dns_records?name=".toList ++ fullName
      match makeRequest net config "GET".toList url none w with
      | (Outcome.error err, w1) => (Outcome.error err, w1)
      | (Outcome.panic, w1) => (Outcome.panic, w1)
      | (Outcome.ok respBody, w1) =>
        match lib.Unmarshal respBody with
        | Except.error err => (Outcome.error err, w1)
        | Except.ok result =>
          match (result.index "result".toList).assertArray with
          | none =>
            (Outcome.error ("no se encontró el registro DNS para ".toList ++ name), w1)
          | some [] =>
            (Outcome.error ("no se encontró el registro DNS para ".toList ++ name), w1)
          | some (first :: _) =>
            match recordFromItem first with
            | none => (Outcome.panic, w1)
            | some record => (Outcome.ok record, w1)

/-- The loop of `ListDNSRecords` (cloudflare.go, lines 221-235): the elements
are converted in order; a panic in one of them (`none`) ends the loop. -/
def convertItems : List JSON → Option (List DNSRecord)
  | [] => some []
  | item :: rest =>
    match recordFromItem item with
    | none => none
    | some record =>
      match convertItems rest with
      | none => none
      | some records => some (record :: records)

/-- The method `CloudflareClient.ListDNSRecords` (cloudflare.go, lines
195-238). -/
def ListDNSRecords {σ : Type} (net : Net σ) (lib : JSONLib) (config : Config)
    (w : World σ) : Outcome (List DNSRecord) × World σ :=
  match config.Validate with
  | some err => (Outcome.error err, w)
  | none =>
    let url := config.BaseURL ++ "/zones/".toList ++ config.ZoneID ++ "/dns_records".toList
    match makeRequest net config "GET".toList url none w with
    | (Outcome.error err, w1) => (Outcome.error err, w1)
    | (Outcome.panic, w1) => (Outcome.panic, w1)
    | (Outcome.ok respBody, w1) =>
      match lib.Unmarshal respBody with
      | Except.error err => (Outcome.error err, w1)
      | Except.ok result =>
        match (result.index "result".toList).assertArray with
        | none => (Outcome.ok [], w1)
        | some [] => (Outcome.ok [], w1)
        | some (first :: rest) =>
          match convertItems (first :: rest) with
          | none => (Outcome.panic, w1)
          | some records => (Outcome.ok records, w1)

/-! ## `core/cloudflare_test.go`: the mock server -/

/-- The map `records` of `mockCloudflareServer` (cloudflare_test.go, line 15),
as the list of its entries, keyed by record ID. Go leaves the iteration order
of a map unspecified; the order of the list is the order in which `range`
visits the entries. -/
abbrev MockRecords := List (Str × DNSRecord)

/-- Go `records[key]` with the two-valued form. -/
def MockRecords.get (records : MockRecords) (key : Str) : Option DNSRecord :=
  match records.find? (fun kv => decide (kv.1 = key)) with
  | some kv => some kv.2
  | none => none

/-- Go `records[key] = value`: the entry under `key` is replaced, or a new
entry is added. -/
def MockRecords.set (records : MockRecords) (key : Str) (value : DNSRecord) : MockRecords :=
  if records.any (fun kv => decide (kv.1 = key)) then
    records.map (fun kv => if kv.1 = key then (key, value) else kv)
  else records ++ [(key, value)]

/-- Go `delete(records, key)`. -/
def MockRecords.delete (records : MockRecords) (key : Str) : MockRecords :=
  records.filter (fun kv => decide (kv.1 ≠ key))

/-- The value `encoding/json` writes for a `DNSRecord`, by the struct tags
(cloudflare.go, lines 46-51): `id` is left out when empty. -/
def recordJSON (r : DNSRecord) : JSON :=
  JSON.obj
    ((if r.ID = "".toList then [] else [("id".toList, JSON.str r.ID)]) ++
     [("name".toList, JSON.str r.Name), ("type".toList, JSON.str r.Type_),
      ("content".toList, JSON.str r.Content), ("ttl".toList, JSON.num (r.TTL : ℚ)),
      ("proxied".toList, JSON.bool r.Proxied)])

/-- The map `response` of the mock server (cloudflare_test.go, lines 49-53 and
alike): `success` true, `errors` empty, and the given `result`. -/
def mockEnvelope (result : JSON) : JSON :=
  JSON.obj [("success".toList, JSON.bool true), ("errors".toList, JSON.arr []),
            ("result".toList, result)]

/-- Go `http.Error(w, msg, code)` with the status line `status`. -/
def httpError (msg : Str) (code : Int) (status : Str) : Response :=
  { StatusCode := code, Status := status, Body := Except.ok (msg ++ "\n".toList) }

/-- A response written without `WriteHeader`: status 200. -/
def httpOK (body : Str) : Response :=
  { StatusCode := 200, Status := "200 OK".toList, Body := Except.ok body }

/-- Go `r.Header.Get(key)`. -/
def headerGet (header : List (Str × Str)) (key : Str) : Str :=
  match header.find? (fun kv => decide (kv.1 = key)) with
  | some kv => kv.2
  | none => []

/-- The PATCH branch's field updates (cloudflare_test.go, lines 73-87): each
field present in `requestData` with the right type replaces the record's. -/
def mockPatchFields (record : DNSRecord) (requestData : GoMap) : DNSRecord :=
  let r1 := match (requestData.index "name".toList).assertString with
    | some name => { record with Name := name }
    | none => record
  let r2 := match (requestData.index "type".toList).assertString with
    | some recordType => { r1 with Type_ := recordType }
    | none => r1
  let r3 := match (requestData.index "content".toList).assertString with
    | some content => { r2 with Content := content }
    | none => r2
  let r4 := match (requestData.index "ttl".toList).assertFloat64 with
    | some ttl => { r3 with TTL := goInt ttl }
    | none => r3
  match (requestData.index "proxied".toList).assertBool with
  | some proxied => { r4 with Proxied := proxied }
  | none => r4

/-- The handler of `mockCloudflareServer` (cloudflare_test.go, lines 17-156),
on a request given by its method, `r.URL.Path`, `r.URL.Query().Get("name")`,
headers and body. -/
def mockHandler (lib : JSONLib) (records : MockRecords) (method path queryName : Str)
    (header : List (Str × Str)) (body : Str) : Response × MockRecords :=
  if headerGet header "Authorization".toList ≠ "Bearer test-token".toList then
    (httpError "Unauthorized".toList 401 "401 Unauthorized".toList, records)
  else if method = "POST".toList
      ∧ path = "/client/v4/zones/test-zone-id/dns_records".toList then
    let record := lib.UnmarshalRecord body
    let record := if record.ID = "".toList then { record with ID := "test-record-id".toList }
                  else record
    let storedRecord : DNSRecord :=
      { ID := record.ID, Name := record.Name, Type_ := record.Type_,
        Content := record.Content, TTL := record.TTL, Proxied := record.Proxied }
    (httpOK (lib.Encode (mockEnvelope (recordJSON storedRecord))),
      records.set record.ID storedRecord)
  else if method = "PATCH".toList
      ∧ path = "/client/v4/zones/test-zone-id/dns_records/test-record-id".toList then
    let requestData := match lib.Unmarshal body with
      | Except.ok m => m
      | Except.error _ => []
    match records.get "test-record-id".toList with
    | none => (httpError "Record not found".toList 404 "404 Not Found".toList, records)
    | some record =>
      let record := mockPatchFields record requestData
      (httpOK (lib.Encode (mockEnvelope (recordJSON record))),
        records.set "test-record-id".toList record)
  else if method = "DELETE".toList
      ∧ path = "/client/v4/zones/test-zone-id/dns_records/test-record-id".toList then
    (httpOK (lib.Encode (mockEnvelope JSON.null)), records.delete "test-record-id".toList)
  else if method = "GET".toList
      ∧ path = "/client/v4/zones/test-zone-id/dns_records".toList then
    if queryName ≠ "".toList then
      match records.find? (fun kv => decide (kv.2.Name = queryName)) with
      | some kv =>
        (httpOK (lib.Encode (mockEnvelope (JSON.arr [recordJSON kv.2]))), records)
      | none => (httpOK (lib.Encode (mockEnvelope JSON.null)), records)
    else
      match records with
      | [] => (httpOK (lib.Encode (mockEnvelope JSON.null)), records)
      | _ :: _ =>
        (httpOK (lib.Encode (mockEnvelope (JSON.arr (records.map (fun kv => recordJSON kv.2))))),
          records)
  else (httpError "Not Found".toList 404 "404 Not Found".toList, records)

/-- What becomes of a request that `client.Do` sends to a URL: no server is
reached (a transport error), or the server's HTTP layer answers by itself
without calling the handler, or the handler is called with `r.URL.Path` and
`r.URL.Query().Get("name")`. -/
inductive Route where
  | unreachable (err : Str)
  | refused (resp : Response)
  | handler (path name : Str)

/-- The packages `net/http` and `net/url` between the client and the test
server, as far as URLs go. `NewRequest method url` is the error of
`http.NewRequest` (`none` when there is none); `route url` is what becomes of
a request sent to `url`. -/
structure URLLib where
  NewRequest : Str → Str → Option Str
  route : Str → Route

/-- The `net/http` stack of the test over a URL library: a request whose URL
is routed to the handler reaches `mockHandler`. -/
def mockNetWith (lib : JSONLib) (urls : URLLib) : Net MockRecords where
  NewRequest := urls.NewRequest
  Do := fun records req =>
    match urls.route req.URL with
    | Route.unreachable err => (Except.error err, records)
    | Route.refused resp => (Except.ok resp, records)
    | Route.handler path name =>
      let out := mockHandler lib records req.Method path name req.Header (req.Body.getD [])
      (Except.ok out.1, out.2)

/-- A control byte, as `net/url` tests it: below a space, or DEL. -/
def isCTL (c : Char) : Bool := decide (c.toNat < 32) || decide (c.toNat = 127)

/-- Go `strings.Cut(s, sep)` for a one-byte separator: the text before the
first `sep` and the text after it (all of `s` and nothing when there is no
`sep`). -/
def cutAt (sep : Char) (s : Str) : Str × Str :=
  (s.takeWhile (fun c => decide (c ≠ sep)),
   (s.dropWhile (fun c => decide (c ≠ sep))).drop 1)

/-- The value of a hexadecimal digit. -/
def hexVal (c : Char) : Option Nat :=
  if 48 ≤ c.toNat ∧ c.toNat ≤ 57 then some (c.toNat - 48)
  else if 97 ≤ c.toNat ∧ c.toNat ≤ 102 then some (c.toNat - 87)
  else if 65 ≤ c.toNat ∧ c.toNat ≤ 70 then some (c.toNat - 55)
  else none

/-- The unescaping of `net/url`: `%XX` becomes the byte `XX`, and in a query
(`plusToSpace`) a `+` becomes a space; `none` is the error for a `%` that two
hexadecimal digits do not follow. -/
def unescape (plusToSpace : Bool) : Str → Option Str
  | [] => some []
  | c :: rest =>
    if c = Char.ofNat 37 then
      match rest with
      | h :: l :: rest2 =>
        match hexVal h, hexVal l, unescape plusToSpace rest2 with
        | some a, some b, some s => some (Char.ofNat (16 * a + b) :: s)
        | _, _, _ => none
      | _ => none
    else
      match unescape plusToSpace rest with
      | some s =>
        some ((if plusToSpace = true ∧ c = Char.ofNat 43 then Char.ofNat 32 else c) :: s)
      | none => none

/-- The pieces of a string between the occurrences of a separator. -/
def splitOn (sep : Char) : Str → List Str
  | [] => [[]]
  | c :: rest =>
    if c = sep then [] :: splitOn sep rest
    else
      match splitOn sep rest with
      | seg :: segs => (c :: seg) :: segs
      | [] => [[c]]

/-- One `key=value` piece of a raw query as `url.ParseQuery` reads it: a
piece that is empty, holds a `;`, or does not unescape is skipped (`none`). -/
def queryPair (piece : Str) : Option (Str × Str) :=
  if Char.ofNat 59 ∈ piece ∨ piece = [] then none
  else
    match unescape true (cutAt (Char.ofNat 61) piece).1,
          unescape true (cutAt (Char.ofNat 61) piece).2 with
    | some k, some v => some (k, v)
    | _, _ => none

/-- Go `r.URL.Query().Get(key)`: the raw query is cut at every `&`, each
piece is read by `queryPair`, and the first value under `key` is returned
(the empty string when there is none). -/
def queryGet (rawQuery key : Str) : Str :=
  match ((splitOn (Char.ofNat 38) rawQuery).filterMap queryPair).find?
      (fun kv => decide (kv.1 = key)) with
  | some kv => kv.2
  | none => []

/-- The part of a URL before its fragment: `url.Parse` cuts the URL at the
first `#`, and the fragment is not sent. -/
def beforeFragment (url : Str) : Str := (cutAt (Char.ofNat 35) url).1

/-- The fragment of a URL: the text after the first `#`. -/
def fragmentOf (url : Str) : Str := (cutAt (Char.ofNat 35) url).2

/-- The URL library of Go with the test server listening at `serverURL` (the
value of `server.URL`, of the form `http://host:port`).

`http.NewRequest` fails when the URL before its fragment holds a control
byte, or when its path or its fragment does not unescape (the text of the
errors is abridged). A request sent to a URL that, before its fragment, is
`serverURL` followed by nothing, by a path starting with `/`, or by a query,
reaches the server; any other address is a transport error. The path is the
text up to the first `?`, unescaped (`/` when empty), and the raw query the
text after it. A raw query holding a space breaks the request line, and the
server answers `400 Bad Request` without calling the handler. -/
def goURLLib (serverURL : Str) : URLLib where
  NewRequest := fun _ url =>
    if (beforeFragment url).any isCTL then
      some "net/url: invalid control character in URL".toList
    else if serverURL.isPrefixOf (beforeFragment url) then
      match unescape false (cutAt (Char.ofNat 63)
              ((beforeFragment url).drop serverURL.length)).1,
            unescape false (fragmentOf url) with
      | some _, some _ => none
      | _, _ => some "invalid URL escape".toList
    else none
  route := fun url =>
    if serverURL.isPrefixOf (beforeFragment url) then
      let rest := (beforeFragment url).drop serverURL.length
      if rest = [] ∨ rest.head? = some (Char.ofNat 47) ∨ rest.head? = some (Char.ofNat 63) then
        if Char.ofNat 32 ∈ (cutAt (Char.ofNat 63) rest).2 then
          Route.refused { StatusCode := 400, Status := "400 Bad Request".toList,
                          Body := Except.ok "400 Bad Request".toList }
        else
          match unescape false (cutAt (Char.ofNat 63) rest).1 with
          | some path =>
            Route.handler (if path = [] then "/".toList else path)
              (queryGet (cutAt (Char.ofNat 63) rest).2 "name".toList)
          | none => Route.unreachable "invalid URL escape".toList
      else Route.unreachable "dial tcp: connection refused".toList
    else Route.unreachable "dial tcp: connection refused".toList

/-- The `net/http` stack of the test: the mock server listening at
`serverURL`, reached through Go's URL library. -/
def mockNet (lib : JSONLib) (serverURL : Str) : Net MockRecords :=
  mockNetWith lib (goURLLib serverURL)

/-! ## A concrete JSON library and the configuration of the test

The client and the mock server use `encoding/json` only through the four
functions of `JSONLib`, so the text format on the wire does not matter to
them. The library below writes values in a prefix code (a tag character per
value, lengths in unary) and reads them back. -/

/-- A natural number on the wire: that many `x`, then a `.`. -/
def wireNat (n : Nat) : Str := List.replicate n 'x' ++ ['.']

/-- A string on the wire: its length, then its elements. -/
def wireStr (s : Str) : Str := wireNat s.length ++ s

mutual
/-- A decoded value on the wire. -/
def wireEncode : JSON → Str
  | JSON.null => ['n']
  | JSON.bool true => ['t']
  | JSON.bool false => ['f']
  | JSON.num v =>
    (if v.num < 0 then ['-'] else ['+']) ++ wireNat v.num.natAbs ++ wireNat v.den
  | JSON.str s => 's' :: wireStr s
  | JSON.arr xs => 'a' :: wireEncodeList xs
  | JSON.obj kvs => 'o' :: wireEncodeObj kvs
/-- The elements of an array on the wire. -/
def wireEncodeList : List JSON → Str
  | [] => [']']
  | x :: xs => ',' :: (wireEncode x ++ wireEncodeList xs)
/-- The entries of an object on the wire. -/
def wireEncodeObj : List (Str × JSON) → Str
  | [] => [']']
  | (k, v) :: kvs => ',' :: (wireStr k ++ wireEncode v ++ wireEncodeObj kvs)
end

/-- Reads a natural number, returning it with the rest of the input. -/
def wireDecodeNat : Str → Option (Nat × Str)
  | [] => none
  | c :: r =>
    if c = 'x' then
      match wireDecodeNat r with
      | some (n, r1) => some (n + 1, r1)
      | none => none
    else if c = '.' then some (0, r)
    else none

/-- Reads a string, returning it with the rest of the input. -/
def wireDecodeStr (s : Str) : Option (Str × Str) :=
  match wireDecodeNat s with
  | some (n, r) => if n ≤ r.length then some (r.take n, r.drop n) else none
  | none => none

mutual
/-- Reads a value, returning it with the rest of the input; the first
argument bounds the nesting and length of what is read. -/
def wireDecode : Nat → Str → Option (JSON × Str)
  | 0, _ => none
  | _ + 1, [] => none
  | fuel + 1, c :: r =>
    if c = 'n' then some (JSON.null, r)
    else if c = 't' then some (JSON.bool true, r)
    else if c = 'f' then some (JSON.bool false, r)
    else if c = '+' ∨ c = '-' then
      match wireDecodeNat r with
      | some (n, r1) =>
        match wireDecodeNat r1 with
        | some (d, r2) =>
          some (JSON.num (mkRat (if c = '-' then - (n : Int) else (n : Int)) d), r2)
        | none => none
      | none => none
    else if c = 's' then
      match wireDecodeStr r with
      | some (s, r1) => some (JSON.str s, r1)
      | none => none
    else if c = 'a' then
      match wireDecodeList fuel r with
      | some (xs, r1) => some (JSON.arr xs, r1)
      | none => none
    else if c = 'o' then
      match wireDecodeObj fuel r with
      | some (kvs, r1) => some (JSON.obj kvs, r1)
      | none => none
    else none
/-- Reads the elements of an array. -/
def wireDecodeList : Nat → Str → Option (List JSON × Str)
  | 0, _ => none
  | _ + 1, [] => none
  | fuel + 1, c :: r =>
    if c = ']' then some ([], r)
    else if c = ',' then
      match wireDecode fuel r with
      | some (x, r1) =>
        match wireDecodeList fuel r1 with
        | some (xs, r2) => some (x :: xs, r2)
        | none => none
      | none => none
    else none
/-- Reads the entries of an object. -/
def wireDecodeObj : Nat → Str → Option (List (Str × JSON) × Str)
  | 0, _ => none
  | _ + 1, [] => none
  | fuel + 1, c :: r =>
    if c = ']' then some ([], r)
    else if c = ',' then
      match wireDecodeStr r with
      | some (k, r0) =>
        match wireDecode fuel r0 with
        | some (v, r1) =>
          match wireDecodeObj fuel r1 with
          | some (kvs, r2) => some ((k, v) :: kvs, r2)
          | none => none
        | none => none
      | none => none
    else none
end

/-- The library's `json.Unmarshal` into a `map[string]interface{}`: an object
gives its entries, `null` leaves the map nil, anything else is an error. -/
def wireUnmarshal (data : Str) : Except Str GoMap :=
  match wireDecode (data.length + 1) data with
  | some (JSON.obj kvs, []) => Except.ok kvs
  | some (JSON.null, []) => Except.ok []
  | some _ => Except.error "json: cannot unmarshal into Go value of type map".toList
  | none => Except.error "invalid character".toList

/-- The library's `json.Unmarshal` into a zero `DNSRecord`: each field is set
from the member named by its tag when that member has the field's type. -/
def wireUnmarshalRecord (data : Str) : DNSRecord :=
  match wireUnmarshal data with
  | Except.error _ =>
    { ID := [], Name := [], Type_ := [], Content := [], TTL := 0, Proxied := false }
  | Except.ok m =>
    { ID := ((m.index "id".toList).assertString).getD [],
      Name := ((m.index "name".toList).assertString).getD [],
      Type_ := ((m.index "type".toList).assertString).getD [],
      Content := ((m.index "content".toList).assertString).getD [],
      TTL := match (m.index "ttl".toList).assertFloat64 with
        | some v => goInt v
        | none => 0,
      Proxied := ((m.index "proxied".toList).assertBool).getD false }

/-- The concrete JSON library. -/
def testLib : JSONLib where
  Marshal := fun record => Except.ok (wireEncode (recordJSON record))
  Unmarshal := wireUnmarshal
  UnmarshalRecord := wireUnmarshalRecord
  Encode := wireEncode

/-- The `net/http` stack facing a server that answers every request with
the response `resp` and keeps no state. -/
def constNet (resp : Response) : Net Unit where
  NewRequest := fun _ _ => none
  Do := fun s _ => (Except.ok resp, s)

/-- The address of the test server (`server.URL`). -/
def testServerURL : Str := "http://127.0.0.1:8080".toList

/-- The configuration of `TestCloudflareClient` (cloudflare_test.go, lines
165-171). -/
def testConfig : Config :=
  { APIToken := "test-token".toList, ZoneID := "test-zone-id".toList,
    BaseURL := testServerURL ++ "/client/v4".toList,
    DomainName := "test-domain.com".toList }

/-- The world at the start of the test: the mock server holds no record and
nothing has been sent. -/
def testWorld : World MockRecords := { server := [], sent := [] }

/-- The record of the test `CreateDNSRecord` (cloudflare_test.go, lines
185-191). -/
def testRecord : DNSRecord :=
  { ID := "".toList, Name := "test.test-domain.com".toList, Type_ := "A".toList,
    Content := "192.168.1.1".toList, TTL := 1, Proxied := false }

/-! ## The shape of a record object -/

/-- The member `key` of a decoded JSON object: the nil interface when there
is no such member, or when the value is not an object. -/
def JSON.field (item : JSON) (key : Str) : JSON :=
  match item with
  | JSON.obj kvs => GoMap.index kvs key
  | _ => JSON.null

/-- A well-formed record object: a JSON object with string members `id`,
`name`, `type`, `content`, a numeric member `ttl` and a boolean member
`proxied`. -/
def wellFormedItem (item : JSON) : Prop :=
  (∃ kvs, item = JSON.obj kvs) ∧
  (∃ s, item.field "id".toList = JSON.str s) ∧
  (∃ s, item.field "name".toList = JSON.str s) ∧
  (∃ s, item.field "type".toList = JSON.str s) ∧
  (∃ s, item.field "content".toList = JSON.str s) ∧
  (∃ t, item.field "ttl".toList = JSON.num t) ∧
  (∃ b, item.field "proxied".toList = JSON.bool b)

/-- The record `r` carries the id, name, type, content, ttl and proxied of
the element `item`. The ttl is a JSON number `t` and the record's an `int`:
when `t` lies between the least and the greatest `int`, the record has `t`
with its fraction discarded, that is `⌊t⌋` for `t ≥ 0` and `⌈t⌉` for `t < 0`
(so an integer `t` itself); nothing is said of a `t` beyond that range. -/
def carriesRecord (item : JSON) (r : DNSRecord) : Prop :=
  item.field "id".toList = JSON.str r.ID ∧
  item.field "name".toList = JSON.str r.Name ∧
  item.field "type".toList = JSON.str r.Type_ ∧
  item.field "content".toList = JSON.str r.Content ∧
  (∃ t, item.field "ttl".toList = JSON.num t ∧
    ((minInt : ℚ) ≤ t ∧ t ≤ (maxInt : ℚ) →
      (0 ≤ t → r.TTL = ⌊t⌋) ∧ (t < 0 → r.TTL = ⌈t⌉))) ∧
  item.field "proxied".toList = JSON.bool r.Proxied

/-- The text of the not-found error of `GetDNSRecordByName` (cloudflare.go,
line 176). -/
def notFoundError (name : Str) : Str :=
  "no se encontró el registro DNS para ".toList ++ name

/-- The URL `GetDNSRecordByName` requests for a full name (cloudflare.go,
line 160). -/
def getURL (config : Config) (fullName : Str) : Str :=
  config.BaseURL ++ "/zones/".toList ++ config.ZoneID ++ "/dns_records?name=".toList ++ fullName

/-- The URL `ListDNSRecords` and `CreateDNSRecord` request (cloudflare.go,
lines 102 and 201). -/
def listURL (config : Config) : Str :=
  config.BaseURL ++ "/zones/".toList ++ config.ZoneID ++ "/dns_records".toList

/-- The record of the test as the mock server stores it, with the ID the
server assigns. -/
def storedTestRecord : DNSRecord := { testRecord with ID := "test-record-id".toList }

/-- A response body whose `result` holds one well-formed record object. -/
def wellFormedBody : Str :=
  wireEncode (mockEnvelope (JSON.arr [recordJSON storedTestRecord]))

/-- A response body whose `result` is the array `[1]`: its first element is
not an object. -/
def numberItemBody : Str := wireEncode (mockEnvelope (JSON.arr [JSON.num 1]))

/-- A response body whose `result` holds one record object without the member
`id` (what `encoding/json` writes for a record whose ID is empty). -/
def missingIdBody : Str := wireEncode (mockEnvelope (JSON.arr [recordJSON testRecord]))

/-- A response body whose `result` holds a well-formed record object followed
by `null`. -/
def nullSecondBody : Str :=
  wireEncode (mockEnvelope (JSON.arr [recordJSON storedTestRecord, JSON.null]))

/-- The world facing `constNet`: a server without state, nothing sent. -/
def unitWorld : World Unit := { server := (), sent := [] }

/-- The map `wellFormedBody` decodes to. -/
def wellFormedMap : GoMap :=
  [("success".toList, JSON.bool true), ("errors".toList, JSON.arr []),
   ("result".toList, JSON.arr [recordJSON storedTestRecord])]

/-- The world after one `GET` of `url` with the configuration of the test has
been sent to `constNet`. -/
def unitWorldAfterGet (url : Str) : World Unit :=
  { server := (), sent := [authRequest testConfig "GET".toList url none] }

/-- The record the mock server stores for a posted record (cloudflare_test.go,
lines 33-45): the posted one, with the ID `"test-record-id"` when it has
none. -/
def mockStored (record : DNSRecord) : DNSRecord :=
  { record with ID := if record.ID = "".toList then "test-record-id".toList else record.ID }

/-- The map the mock server's answer to a lookup by name decodes to, when it
found `stored`. -/
def mockFoundMap (stored : DNSRecord) : GoMap :=
  [("success".toList, JSON.bool true), ("errors".toList, JSON.arr []),
   ("result".toList, JSON.arr [recordJSON stored])]

/-- The record of the test with the bare name `"www"`. -/
def wwwRecord : DNSRecord := { testRecord with Name := "www".toList }

/-- A record with the name of the test's record, another ID, type and
content. -/
def otherRecord : DNSRecord :=
  { ID := "other-id".toList, Name := "test.test-domain.com".toList, Type_ := "CNAME".toList,
    Content := "example.org".toList, TTL := 1, Proxied := false }

/-- The world in which the mock server already holds `otherRecord`. -/
def otherWorld : World MockRecords :=
  { server := [("other-id".toList, otherRecord)], sent := [] }

/-- The record of the test with the name `"a&b.test-domain.com"`. -/
def ampRecord : DNSRecord := { testRecord with Name := "a&b.test-domain.com".toList }

/-- The stored record of the test as a record object whose `ttl` is the
number `ttl`. -/
def itemWithTTL (ttl : ℚ) : JSON :=
  JSON.obj [("id".toList, JSON.str "test-record-id".toList),
            ("name".toList, JSON.str "test.test-domain.com".toList),
            ("type".toList, JSON.str "A".toList),
            ("content".toList, JSON.str "192.168.1.1".toList),
            ("ttl".toList, JSON.num ttl),
            ("proxied".toList, JSON.bool false)]

/-- A response body whose `result` holds one record object with `ttl` 1.5. -/
def fractionBody : Str := wireEncode (mockEnvelope (JSON.arr [itemWithTTL (mkRat 3 2)]))

/-- The map `fractionBody` decodes to. -/
def fractionMap : GoMap :=
  [("success".toList, JSON.bool true), ("errors".toList, JSON.arr []),
   ("result".toList, JSON.arr [itemWithTTL (mkRat 3 2)])]

/-- The number 1e30, beyond the range of `int`. -/
def hugeTTL : ℚ := ((1000000000000000000000000000000 : Int) : ℚ)

/-- A decoded response whose `result` holds one record object with `ttl`
1e30. -/
def hugeMap : GoMap := [("result".toList, JSON.arr [itemWithTTL hugeTTL])]

/-- A JSON library whose decoder yields the map `m` for every body: it stands
for a response whose body decodes to `m`. -/
def fixedLib (m : GoMap) : JSONLib where
  Marshal := fun _ => Except.ok []
  Unmarshal := fun _ => Except.ok m
  UnmarshalRecord := fun _ =>
    { ID := [], Name := [], Type_ := [], Content := [], TTL := 0, Proxied := false }
  Encode := fun _ => []

set_option maxRecDepth 100000

/-! ## Facts about Go slicing -/

theorem sliceFrom_sub (s : Str) (k : Nat) (h : k ≤ s.length) :
    sliceFrom s (len s - (k : Int)) = some (s.drop (s.length - k)) := by
  unfold sliceFrom len
  have h1 : ((s.length : Int) - (k : Int)).toNat = s.length - k := by omega
  rw [if_pos (by omega), h1]

theorem sliceTo_sub (s : Str) (k : Nat) (h : k ≤ s.length) :
    sliceTo s (len s - (k : Int)) = some (s.take (s.length - k)) := by
  unfold sliceTo len
  have h1 : ((s.length : Int) - (k : Int)).toNat = s.length - k := by omega
  rw [if_pos (by omega), h1]

theorem drop_eq_iff_suffix (s t : Str) :
    s.drop (s.length - t.length) = t ↔ t <:+ s := by
  rw [List.suffix_iff_eq_drop]
  exact eq_comm

theorem dot_toList : ".".toList = [(Char.ofNat 46)] := by decide

theorem empty_toList : "".toList = ([] : Str) := by decide

theorem suffix_length_le {s t : Str} (h : t <:+ s) : t.length ≤ s.length :=
  h.length_le

/-- The rule of add.go and of `GetDNSRecordByName`, in closed form. -/
theorem addCmd_fullName_eq (D L : Str) (hD : D ≠ []) :
    addCmd_fullName D L =
      some (if (".".toList ++ D) <:+ L then L else L ++ ".".toList ++ D) := by
  unfold addCmd_fullName
  rw [empty_toList, if_pos hD]
  by_cases hle : len L ≤ len D
  · rw [if_pos hle]
    have hlen : L.length ≤ D.length := by unfold len at hle; omega
    have hns : ¬ (".".toList ++ D) <:+ L := by
      intro hs
      have := suffix_length_le hs
      simp [dot_toList] at this
      omega
    rw [if_neg hns]
  · rw [if_neg hle]
    have hlen : D.length + 1 ≤ L.length := by unfold len at hle; omega
    have hgt : len L > len D := by unfold len at hle ⊢; omega
    rw [if_pos hgt]
    have hidx : len L - len D - 1 = len L - ((D.length + 1 : Nat) : Int) := by
      unfold len; push_cast; ring
    rw [hidx, sliceFrom_sub L (D.length + 1) hlen]
    have hl : (".".toList ++ D).length = D.length + 1 := by simp [dot_toList]
    have key := drop_eq_iff_suffix L (".".toList ++ D)
    rw [hl] at key
    by_cases hs : (".".toList ++ D) <:+ L
    · rw [if_pos hs]
      have hdrop := key.mpr hs
      dsimp only
      rw [if_neg (not_not.mpr hdrop)]
    · rw [if_neg hs]
      have hdrop : ¬ List.drop (L.length - (D.length + 1)) L = ".".toList ++ D :=
        fun h => hs (key.mp h)
      dsimp only
      rw [if_pos hdrop]

theorem GetDNSRecordByName_fullName_eq_add (D L : Str) :
    GetDNSRecordByName_fullName D L = addCmd_fullName D L := rfl

/-- The display name of a name of the form `L ++ "." ++ D` is `L`. -/
theorem listCmd_displayName_append (D L : Str) (hD : D ≠ []) :
    listCmd_displayName D (L ++ ".".toList ++ D) = some L := by
  have hlenN : (L ++ ".".toList ++ D).length = L.length + 1 + D.length := by
    simp [dot_toList]
    omega
  unfold listCmd_displayName
  have hgt : len (L ++ ".".toList ++ D) > len D := by
    unfold len; rw [hlenN]; push_cast; omega
  rw [empty_toList, if_pos ⟨hD, hgt⟩]
  have h1 : sliceFrom (L ++ ".".toList ++ D) (len (L ++ ".".toList ++ D) - len D)
      = some (List.drop ((L ++ ".".toList ++ D).length - D.length) (L ++ ".".toList ++ D)) :=
    sliceFrom_sub _ D.length (by rw [hlenN]; omega)
  rw [h1]
  have hdrop : List.drop ((L ++ ".".toList ++ D).length - D.length) (L ++ ".".toList ++ D)
      = D := (drop_eq_iff_suffix _ D).mpr (List.suffix_append _ _)
  rw [hdrop]
  dsimp only
  rw [if_pos rfl]
  have h2 : len (L ++ ".".toList ++ D) - len D - 1
      = len (L ++ ".".toList ++ D) - ((D.length + 1 : Nat) : Int) := by
    unfold len; push_cast; ring
  rw [h2, sliceTo_sub _ (D.length + 1) (by rw [hlenN]; omega)]
  have h3 : (L ++ ".".toList ++ D).length - (D.length + 1) = L.length := by
    rw [hlenN]; omega
  rw [h3, List.append_assoc, List.take_left]

/-! ## Name normalization and display (C1, C9, C10) -/

/-- C1: for every subdomain `L` and non-empty base domain `D`, the name built
by the add command, and the one built inside `GetDNSRecordByName`, is `L`
itself when `L` ends with `"." + D` and is exactly `L + "." + D` otherwise
(and neither computation panics). -/
theorem C1_fullName_rule (L D : Str) (hD : D ≠ []) :
    ((".".toList ++ D) <:+ L →
      addCmd_fullName D L = some L ∧ GetDNSRecordByName_fullName D L = some L) ∧
    (¬ (".".toList ++ D) <:+ L →
      addCmd_fullName D L = some (L ++ ".".toList ++ D) ∧
      GetDNSRecordByName_fullName D L = some (L ++ ".".toList ++ D)) := by
  refine ⟨fun hs => ?_, fun hs => ?_⟩
  · rw [GetDNSRecordByName_fullName_eq_add, addCmd_fullName_eq D L hD, if_pos hs]
    exact ⟨rfl, rfl⟩
  · rw [GetDNSRecordByName_fullName_eq_add, addCmd_fullName_eq D L hD, if_neg hs]
    exact ⟨rfl, rfl⟩

/-- C1 at `D = "example.com"`, `L = "www"`. -/
theorem C1_fullName_rule_witness :
    "example.com".toList ≠ [] ∧
    (((".".toList ++ "example.com".toList) <:+ "www".toList →
      addCmd_fullName "example.com".toList "www".toList = some "www".toList ∧
      GetDNSRecordByName_fullName "example.com".toList "www".toList = some "www".toList) ∧
    (¬ (".".toList ++ "example.com".toList) <:+ "www".toList →
      addCmd_fullName "example.com".toList "www".toList
        = some ("www".toList ++ ".".toList ++ "example.com".toList) ∧
      GetDNSRecordByName_fullName "example.com".toList "www".toList
        = some ("www".toList ++ ".".toList ++ "example.com".toList))) :=
  ⟨by decide, C1_fullName_rule "www".toList "example.com".toList (by decide)⟩

/-- C9, counterexample: with `D = "example.com"` the subdomain `L = D` is not
left unchanged; both the add command and `GetDNSRecordByName` build
`"example.com.example.com"`. -/
theorem C9_counterexample :
    addCmd_fullName "example.com".toList "example.com".toList
      = some "example.com.example.com".toList ∧
    GetDNSRecordByName_fullName "example.com".toList "example.com".toList
      = some "example.com.example.com".toList ∧
    addCmd_fullName "example.com".toList "example.com".toList
      ≠ some "example.com".toList ∧
    GetDNSRecordByName_fullName "example.com".toList "example.com".toList
      ≠ some "example.com".toList := by
  decide

/-- C9, amended: for every non-empty base domain `D`, name normalization of a
subdomain equal to `D` (by the add command and by `GetDNSRecordByName`)
produces `D + "." + D`: a name no longer than `D` always gets the suffix. -/
theorem C9_fullName_of_domain (D : Str) (hD : D ≠ []) :
    addCmd_fullName D D = some (D ++ ".".toList ++ D) ∧
    GetDNSRecordByName_fullName D D = some (D ++ ".".toList ++ D) := by
  have hns : ¬ (".".toList ++ D) <:+ D := by
    intro hs
    have hle := suffix_length_le hs
    simp [dot_toList] at hle
  rw [GetDNSRecordByName_fullName_eq_add, addCmd_fullName_eq D D hD, if_neg hns]
  exact ⟨rfl, rfl⟩

/-- C9, amended, at `D = "example.com"`. -/
theorem C9_fullName_of_domain_witness :
    "example.com".toList ≠ [] ∧
    (addCmd_fullName "example.com".toList "example.com".toList
      = some ("example.com".toList ++ ".".toList ++ "example.com".toList) ∧
    GetDNSRecordByName_fullName "example.com".toList "example.com".toList
      = some ("example.com".toList ++ ".".toList ++ "example.com".toList)) :=
  ⟨by decide, C9_fullName_of_domain "example.com".toList (by decide)⟩

/-- C10: display inverts normalization. For every non-empty base domain `D`
and every label `L` that does not end with `"." + D`, the add command builds a
name `N` for `L`, and the display name the list command computes for `N` is
exactly `L`. -/
theorem C10_display_inverts_add (L D : Str) (hD : D ≠ [])
    (hL : ¬ (".".toList ++ D) <:+ L) :
    ∃ N, addCmd_fullName D L = some N ∧ listCmd_displayName D N = some L := by
  refine ⟨L ++ ".".toList ++ D, ?_, listCmd_displayName_append D L hD⟩
  rw [addCmd_fullName_eq D L hD, if_neg hL]

/-- C10 at `D = "example.com"`, `L = "www"`: stored as `"www.example.com"`,
displayed as `"www"`. -/
theorem C10_display_inverts_add_witness :
    "example.com".toList ≠ [] ∧
    ¬ (".".toList ++ "example.com".toList) <:+ "www".toList ∧
    addCmd_fullName "example.com".toList "www".toList = some "www.example.com".toList ∧
    listCmd_displayName "example.com".toList "www.example.com".toList = some "www".toList ∧
    ∃ N, addCmd_fullName "example.com".toList "www".toList = some N ∧
      listCmd_displayName "example.com".toList N = some "www".toList :=
  ⟨by decide, by decide, by decide, by decide,
    C10_display_inverts_add "www".toList "example.com".toList (by decide) (by decide)⟩

/-! ## `makeRequest` (C4) -/

/-- C4: when the request is sent and answered with status code `s`, status
line `t` and a body `b` that is read successfully, `makeRequest` returns an
error if and only if `s < 200` or `s > 299`; the error text is then
`"error en la solicitud: " + t + " - " + b`, and otherwise the result is
exactly `b`. -/
theorem C4_makeRequest_status {σ : Type} (net : Net σ) (config : Config)
    (method url : Str) (body : Option Str) (w : World σ) (s : Int) (t b : Str) (srv : σ)
    (hnew : net.NewRequest method url = none)
    (hdo : net.Do w.server (authRequest config method url body)
      = (Except.ok { StatusCode := s, Status := t, Body := Except.ok b }, srv)) :
    ((∃ msg, (makeRequest net config method url body w).1 = Outcome.error msg)
      ↔ (s < 200 ∨ s > 299)) ∧
    ((s < 200 ∨ s > 299) → (makeRequest net config method url body w).1
      = Outcome.error ("error en la solicitud: ".toList ++ t ++ " - ".toList ++ b)) ∧
    (¬ (s < 200 ∨ s > 299) → (makeRequest net config method url body w).1 = Outcome.ok b) := by
  have hge : (s < 200 ∨ s ≥ 300) ↔ (s < 200 ∨ s > 299) := by
    constructor <;> intro h <;> omega
  unfold makeRequest
  simp only [hnew, hdo]
  by_cases hs : s < 200 ∨ s > 299
  · rw [if_pos (hge.mpr hs)]
    exact ⟨⟨fun _ => hs, fun _ => ⟨_, rfl⟩⟩, fun _ => rfl, fun h => absurd hs h⟩
  · rw [if_neg (fun h => hs (hge.mp h))]
    refine ⟨⟨fun h => ?_, fun h => absurd h hs⟩, fun h => absurd h hs, fun _ => rfl⟩
    obtain ⟨msg, hmsg⟩ := h
    cases hmsg

/-- C4 at two answers: a `404 Not Found` with body `"Not Found\n"` and a
`200 OK` with body `"ok"`. -/
theorem C4_makeRequest_status_witness :
    (makeRequest (constNet (httpError "Not Found".toList 404 "404 Not Found".toList))
        testConfig "GET".toList "http://h/x".toList none { server := (), sent := [] }).1
      = Outcome.error "error en la solicitud: 404 Not Found - Not Found\n".toList ∧
    (makeRequest (constNet (httpOK "ok".toList))
        testConfig "GET".toList "http://h/x".toList none { server := (), sent := [] }).1
      = Outcome.ok "ok".toList :=
  ⟨((C4_makeRequest_status (constNet (httpError "Not Found".toList 404 "404 Not Found".toList))
      testConfig "GET".toList "http://h/x".toList none { server := (), sent := [] }
      404 "404 Not Found".toList "Not Found\n".toList () rfl rfl).2.1 (by decide)).trans
      (by decide),
   (C4_makeRequest_status (constNet (httpOK "ok".toList))
      testConfig "GET".toList "http://h/x".toList none { server := (), sent := [] }
      200 "200 OK".toList "ok".toList () rfl rfl).2.2 (by decide)⟩

/-! ## Configuration validation (C7) -/

/-- C7: `Config.Validate` returns no error if and only if the API token, the
zone ID and the domain name are all non-empty; and on a configuration on which
it fails with `err`, each of `CreateDNSRecord`, `UpdateDNSRecord`,
`DeleteDNSRecord`, `GetDNSRecordByName` and `ListDNSRecords` returns `err` and
leaves the world as it was: no request is appended to those sent and the
server is not reached. -/
theorem C7_validate_first {σ : Type} (net : Net σ) (lib : JSONLib) (config : Config)
    (record : DNSRecord) (recordID name : Str) (w : World σ) :
    (config.Validate = none ↔
      (config.APIToken ≠ [] ∧ config.ZoneID ≠ [] ∧ config.DomainName ≠ [])) ∧
    (∀ err, config.Validate = some err →
      ((CreateDNSRecord net lib config record w).err = Outcome.error err ∧
        (CreateDNSRecord net lib config record w).world = w) ∧
      ((UpdateDNSRecord net lib config recordID record w).err = Outcome.error err ∧
        (UpdateDNSRecord net lib config recordID record w).world = w) ∧
      DeleteDNSRecord net config recordID w = (Outcome.error err, w) ∧
      GetDNSRecordByName net lib config name w = (Outcome.error err, w) ∧
      ListDNSRecords net lib config w = (Outcome.error err, w)) := by
  constructor
  · unfold Config.Validate
    rw [empty_toList]
    by_cases h1 : config.APIToken = []
    · simp [h1]
    · by_cases h2 : config.ZoneID = []
      · simp [h1, h2]
      · by_cases h3 : config.DomainName = []
        · simp [h1, h2, h3]
        · simp [h1, h2, h3]
  · intro err herr
    unfold CreateDNSRecord UpdateDNSRecord DeleteDNSRecord GetDNSRecordByName ListDNSRecords
    simp [herr]

/-- C7 on the configuration of the test with the API token removed, against
the mock server: every operation returns the validation error and nothing is
sent. -/
theorem C7_validate_first_witness :
    Config.Validate { testConfig with APIToken := [] }
      = some "CLOUDFLARE_API_TOKEN no está configurado".toList ∧
    ((CreateDNSRecord (mockNet testLib testServerURL) testLib
        { testConfig with APIToken := [] } testRecord testWorld).err
      = Outcome.error "CLOUDFLARE_API_TOKEN no está configurado".toList ∧
     (CreateDNSRecord (mockNet testLib testServerURL) testLib
        { testConfig with APIToken := [] } testRecord testWorld).world = testWorld) ∧
    ((UpdateDNSRecord (mockNet testLib testServerURL) testLib
        { testConfig with APIToken := [] } "test-record-id".toList testRecord testWorld).err
      = Outcome.error "CLOUDFLARE_API_TOKEN no está configurado".toList ∧
     (UpdateDNSRecord (mockNet testLib testServerURL) testLib
        { testConfig with APIToken := [] } "test-record-id".toList testRecord testWorld).world
      = testWorld) ∧
    DeleteDNSRecord (mockNet testLib testServerURL) { testConfig with APIToken := [] }
        "test-record-id".toList testWorld
      = (Outcome.error "CLOUDFLARE_API_TOKEN no está configurado".toList, testWorld) ∧
    GetDNSRecordByName (mockNet testLib testServerURL) testLib
        { testConfig with APIToken := [] } "test.test-domain.com".toList testWorld
      = (Outcome.error "CLOUDFLARE_API_TOKEN no está configurado".toList, testWorld) ∧
    ListDNSRecords (mockNet testLib testServerURL) testLib
        { testConfig with APIToken := [] } testWorld
      = (Outcome.error "CLOUDFLARE_API_TOKEN no está configurado".toList, testWorld) :=
  ⟨by decide,
   (C7_validate_first (mockNet testLib testServerURL) testLib { testConfig with APIToken := [] }
      testRecord "test-record-id".toList "test.test-domain.com".toList testWorld).2
      "CLOUDFLARE_API_TOKEN no está configurado".toList (by decide)⟩

/-! ## `CreateDNSRecord` and the record's ID (C8) -/

/-- `CreateDNSRecord` leaves the record it is given as it was. -/
theorem CreateDNSRecord_record {σ : Type} (net : Net σ) (lib : JSONLib) (config : Config)
    (record : DNSRecord) (w : World σ) :
    (CreateDNSRecord net lib config record w).record = record := by
  unfold CreateDNSRecord
  cases config.Validate with
  | some err => rfl
  | none =>
    dsimp only
    cases lib.Marshal record with
    | error err => rfl
    | ok jsonData =>
      dsimp only
      generalize makeRequest net config "POST".toList _ (some jsonData) w = res
      obtain ⟨out, w1⟩ := res
      cases out <;> rfl

/-- C8, the code at the failing input: in the test `CreateDNSRecord`
(cloudflare_test.go, lines 184-204), against the mock server, the call returns
without error, the server stores the record under the ID it assigned,
`"test-record-id"`, and the ID of the record passed is still empty. -/
theorem C8_create_leaves_ID_empty :
    (CreateDNSRecord (mockNet testLib testServerURL) testLib testConfig testRecord
        testWorld).err = Outcome.ok () ∧
    (CreateDNSRecord (mockNet testLib testServerURL) testLib testConfig testRecord
        testWorld).world.server
      = [("test-record-id".toList, { testRecord with ID := "test-record-id".toList })] ∧
    (CreateDNSRecord (mockNet testLib testServerURL) testLib testConfig testRecord
        testWorld).record.ID = "".toList := by
  decide

/-! ## Reading the response of a lookup or a listing (C3, C5, C6) -/

theorem validate_none_domain (config : Config) (hv : config.Validate = none) :
    config.DomainName ≠ [] := by
  intro h
  unfold Config.Validate at hv
  rw [empty_toList] at hv
  simp [h] at hv
  split_ifs at hv

theorem fullName_some (D name : Str) (hD : D ≠ []) :
    ∃ fullName, GetDNSRecordByName_fullName D name = some fullName :=
  ⟨_, (GetDNSRecordByName_fullName_eq_add D name).trans (addCmd_fullName_eq D name hD)⟩

theorem tdiv_eq_floor (t : ℚ) (h : 0 ≤ t) : Int.tdiv t.num (t.den : Int) = ⌊t⌋ := by
  rw [Rat.floor_def]
  exact Int.tdiv_eq_ediv (Rat.num_nonneg.mpr h) (Int.ofNat_nonneg _)

theorem tdiv_eq_ceil (t : ℚ) (h : t < 0) : Int.tdiv t.num (t.den : Int) = ⌈t⌉ := by
  have h1 := tdiv_eq_floor (-t) (by linarith)
  rw [Rat.neg_num, Rat.neg_den, Int.neg_tdiv, Int.floor_neg] at h1
  exact neg_injective h1

/-- Within the range of `int`, the conversion `int(f)` discards the fraction:
it is the floor of a value that is not negative and the ceiling of a negative
one. -/
theorem goInt_in_range (t : ℚ) (hlo : (minInt : ℚ) ≤ t) (hhi : t ≤ (maxInt : ℚ)) :
    (0 ≤ t → goInt t = ⌊t⌋) ∧ (t < 0 → goInt t = ⌈t⌉) := by
  constructor
  · intro h
    unfold goInt
    rw [tdiv_eq_floor t h]
    have h1 : ⌊t⌋ ≤ maxInt := by
      have hf := Int.floor_le t
      exact_mod_cast le_trans hf hhi
    have h2 : minInt ≤ ⌊t⌋ := le_trans (by decide) (Int.floor_nonneg.mpr h)
    rw [if_pos ⟨h2, h1⟩]
  · intro h
    unfold goInt
    rw [tdiv_eq_ceil t h]
    have h1 : minInt ≤ ⌈t⌉ := by
      have hc := Int.le_ceil t
      exact_mod_cast le_trans hlo hc
    have h2 : ⌈t⌉ ≤ maxInt := by
      have h0 : ⌈t⌉ ≤ 0 := Int.ceil_le.mpr (by exact_mod_cast le_of_lt h)
      exact le_trans h0 (by decide)
    rw [if_pos ⟨h1, h2⟩]

/-- The conversion `int(f)` always yields a value of the type `int`. -/
theorem goInt_bounds (t : ℚ) : minInt ≤ goInt t ∧ goInt t ≤ maxInt := by
  unfold goInt
  split_ifs with h
  · exact h
  · exact ⟨le_refl _, by decide⟩

/-- A well-formed element converts without panic into a record carrying its
members. -/
theorem recordFromItem_of_wellFormed (item : JSON) (h : wellFormedItem item) :
    ∃ r, recordFromItem item = some r ∧ carriesRecord item r := by
  obtain ⟨⟨kvs, rfl⟩, ⟨i, hi⟩, ⟨n, hn⟩, ⟨ty, hty⟩, ⟨c, hc⟩, ⟨t, ht⟩, ⟨p, hp⟩⟩ := h
  simp only [JSON.field] at hi hn hty hc ht hp
  refine ⟨{ ID := i, Name := n, Type_ := ty, Content := c, TTL := goInt t, Proxied := p },
    ?_, ?_⟩
  · simp only [recordFromItem, JSON.assertMap, hi, hn, hty, hc, ht, hp, JSON.assertString,
      JSON.assertFloat64, JSON.assertBool]
  · exact ⟨hi, hn, hty, hc, ⟨t, ht, fun hr => goInt_in_range t hr.1 hr.2⟩, hp⟩

theorem assertString_some {v : JSON} {s : Str} (h : v.assertString = some s) :
    v = JSON.str s := by
  cases v <;> simp [JSON.assertString] at h
  rw [h]

theorem assertFloat64_some {v : JSON} {t : ℚ} (h : v.assertFloat64 = some t) :
    v = JSON.num t := by
  cases v <;> simp [JSON.assertFloat64] at h
  rw [h]

theorem assertBool_some {v : JSON} {b : Bool} (h : v.assertBool = some b) :
    v = JSON.bool b := by
  cases v <;> simp [JSON.assertBool] at h
  rw [h]

theorem assertMap_some {v : JSON} {kvs : GoMap} (h : v.assertMap = some kvs) :
    v = JSON.obj kvs := by
  cases v <;> simp [JSON.assertMap] at h
  rw [h]

/-- Only a well-formed element converts into a record. -/
theorem wellFormed_of_recordFromItem (item : JSON) (r : DNSRecord)
    (hr : recordFromItem item = some r) : wellFormedItem item := by
  unfold recordFromItem at hr
  split at hr
  · cases hr
  next recordData hmap =>
    split at hr
    · cases hr
    next id hid =>
      split at hr
      · cases hr
      next name hname =>
        split at hr
        · cases hr
        next type htype =>
          split at hr
          · cases hr
          next content hcontent =>
            split at hr
            · cases hr
            next ttl httl =>
              split at hr
              · cases hr
              next proxied hproxied =>
                have hobj := assertMap_some hmap
                subst hobj
                exact ⟨⟨_, rfl⟩, ⟨id, assertString_some hid⟩, ⟨name, assertString_some hname⟩,
                  ⟨type, assertString_some htype⟩, ⟨content, assertString_some hcontent⟩,
                  ⟨ttl, assertFloat64_some httl⟩, ⟨proxied, assertBool_some hproxied⟩⟩

/-- An element that is not well-formed makes the conversion panic. -/
theorem recordFromItem_of_not_wellFormed (item : JSON) (h : ¬ wellFormedItem item) :
    recordFromItem item = none := by
  cases hr : recordFromItem item with
  | none => rfl
  | some r => exact absurd (wellFormed_of_recordFromItem item r hr) h

/-- What `GetDNSRecordByName` returns once the request has been answered with
a 2xx response whose body `b` decodes to the map `m`. -/
theorem GetDNSRecordByName_of_response {σ : Type} (net : Net σ) (lib : JSONLib)
    (config : Config) (name : Str) (w w1 : World σ) (b : Str) (m : GoMap)
    (hv : config.Validate = none)
    (hresp : ∀ fullName, GetDNSRecordByName_fullName config.DomainName name = some fullName →
      makeRequest net config "GET".toList (getURL config fullName) none w = (Outcome.ok b, w1))
    (hjson : lib.Unmarshal b = Except.ok m) :
    GetDNSRecordByName net lib config name w =
      match (m.index "result".toList).assertArray with
      | none => (Outcome.error (notFoundError name), w1)
      | some [] => (Outcome.error (notFoundError name), w1)
      | some (first :: _) =>
        match recordFromItem first with
        | none => (Outcome.panic, w1)
        | some record => (Outcome.ok record, w1) := by
  obtain ⟨fullName, hfull⟩ := fullName_some config.DomainName name (validate_none_domain config hv)
  have hr := hresp fullName hfull
  unfold getURL at hr
  unfold GetDNSRecordByName
  simp only [hv, hfull, hr, hjson]
  rfl

/-- What `ListDNSRecords` returns once the request has been answered with a
2xx response whose body `b` decodes to the map `m`. -/
theorem ListDNSRecords_of_response {σ : Type} (net : Net σ) (lib : JSONLib)
    (config : Config) (w w1 : World σ) (b : Str) (m : GoMap)
    (hv : config.Validate = none)
    (hresp : makeRequest net config "GET".toList (listURL config) none w = (Outcome.ok b, w1))
    (hjson : lib.Unmarshal b = Except.ok m) :
    ListDNSRecords net lib config w =
      match (m.index "result".toList).assertArray with
      | none => (Outcome.ok [], w1)
      | some [] => (Outcome.ok [], w1)
      | some (first :: rest) =>
        match convertItems (first :: rest) with
        | none => (Outcome.panic, w1)
        | some records => (Outcome.ok records, w1) := by
  unfold listURL at hresp
  unfold ListDNSRecords
  simp only [hv, hresp, hjson]

/-- The loop of `ListDNSRecords` on well-formed elements: one record per
element, in order, each carrying the members of its element. -/
theorem convertItems_of_wellFormed (items : List JSON)
    (h : ∀ item ∈ items, wellFormedItem item) :
    ∃ records, convertItems items = some records ∧ List.Forall₂ carriesRecord items records := by
  induction items with
  | nil => exact ⟨[], rfl, List.Forall₂.nil⟩
  | cons item rest ih =>
    obtain ⟨r, hr, hc⟩ := recordFromItem_of_wellFormed item (h item (List.mem_cons_self _ _))
    obtain ⟨rs, hrs, hcs⟩ := ih (fun x hx => h x (List.mem_cons_of_mem _ hx))
    refine ⟨r :: rs, ?_, List.Forall₂.cons hc hcs⟩
    simp only [convertItems, hr, hrs]

/-- The loop of `ListDNSRecords` panics as soon as one element is not
well-formed. -/
theorem convertItems_of_not_wellFormed (items : List JSON) (item : JSON)
    (hmem : item ∈ items) (h : ¬ wellFormedItem item) : convertItems items = none := by
  induction items with
  | nil => cases hmem
  | cons x rest ih =>
    unfold convertItems
    cases hx : recordFromItem x with
    | none => rfl
    | some r =>
      dsimp only
      have hne : item ≠ x := by
        intro he
        subst he
        exact h (wellFormed_of_recordFromItem _ r hx)
      have hrest : item ∈ rest := by
        cases hmem with
        | head => exact absurd rfl hne
        | tail _ hm => exact hm
      rw [ih hrest]

theorem index_of_find_none (m : GoMap) (key : Str)
    (h : m.find? (fun kv => decide (kv.1 = key)) = none) : m.index key = JSON.null := by
  unfold GoMap.index
  rw [h]

/-- C3, counterexample: a `200 OK` response whose body is the JSON object with
`result = [1]`. The `result` member is a non-empty array, yet
`GetDNSRecordByName` neither fails with the not-found error nor returns a
record: the type assertion on the first element panics. Moreover the ttl
returned is not always that of the first element: for a record object with
`ttl` 1.5 the record returned has TTL 1, and for one with `ttl` 1e30, which no
`int` can hold, it has the least `int`. -/
theorem C3_counterexample :
    testConfig.Validate = none ∧
    testLib.Unmarshal numberItemBody = Except.ok
      [("success".toList, JSON.bool true), ("errors".toList, JSON.arr []),
       ("result".toList, JSON.arr [JSON.num 1])] ∧
    (GetDNSRecordByName (constNet (httpOK numberItemBody)) testLib testConfig
      "www".toList unitWorld).1 = Outcome.panic ∧
    testLib.Unmarshal fractionBody = Except.ok fractionMap ∧
    (GetDNSRecordByName (constNet (httpOK fractionBody)) testLib testConfig
      "test.test-domain.com".toList unitWorld).1
      = Outcome.ok { storedTestRecord with TTL := 1 } ∧
    ((1 : Int) : ℚ) ≠ mkRat 3 2 ∧
    (GetDNSRecordByName (constNet (httpOK [])) (fixedLib hugeMap) testConfig
      "test.test-domain.com".toList unitWorld).1
      = Outcome.ok { storedTestRecord with TTL := minInt } ∧
    ((minInt : Int) : ℚ) ≠ hugeTTL :=
  ⟨by decide, rfl, by decide, rfl, by decide, by decide, by decide, by decide⟩

/-- C3, amended: for a valid configuration and a 2xx response whose body
decodes to a JSON object `m`, `GetDNSRecordByName name` fails with the
not-found error `"no se encontró el registro DNS para " + name` if and only if
the `result` member is absent, is not an array, or is an empty array; and when
`result` is a non-empty array whose first element is a well-formed record
object, it returns the record with the id, name, type, content and proxied of
that first element and, when the element's ttl lies within the range of
`int`, with that ttl, its fraction discarded. -/
theorem C3_lookup_result {σ : Type} (net : Net σ) (lib : JSONLib)
    (config : Config) (name : Str) (w w1 : World σ) (b : Str) (m : GoMap)
    (hv : config.Validate = none)
    (hresp : ∀ fullName, GetDNSRecordByName_fullName config.DomainName name = some fullName →
      makeRequest net config "GET".toList (getURL config fullName) none w = (Outcome.ok b, w1))
    (hjson : lib.Unmarshal b = Except.ok m) :
    ((GetDNSRecordByName net lib config name w).1 = Outcome.error (notFoundError name) ↔
      (m.find? (fun kv => decide (kv.1 = "result".toList)) = none ∨
       (∀ xs, m.index "result".toList ≠ JSON.arr xs) ∨
       m.index "result".toList = JSON.arr [])) ∧
    (∀ first rest, m.index "result".toList = JSON.arr (first :: rest) →
      wellFormedItem first →
      ∃ r, (GetDNSRecordByName net lib config name w).1 = Outcome.ok r ∧
        carriesRecord first r) := by
  rw [GetDNSRecordByName_of_response net lib config name w w1 b m hv hresp hjson]
  constructor
  · cases hidx : m.index "result".toList with
    | arr xs =>
      cases xs with
      | nil =>
        simp only [JSON.assertArray]
        exact ⟨fun _ => Or.inr (Or.inr trivial), fun _ => trivial⟩
      | cons first rest =>
        simp only [JSON.assertArray]
        constructor
        · intro h
          cases hrec : recordFromItem first <;> rw [hrec] at h <;> cases h
        · intro h
          rcases h with h | h | h
          · rw [index_of_find_none m _ h] at hidx
            cases hidx
          · exact absurd rfl (h (first :: rest))
          · cases h
    | null =>
      simp only [JSON.assertArray]
      exact ⟨fun _ => Or.inr (Or.inl (fun xs h => by cases h)), fun _ => trivial⟩
    | bool v =>
      simp only [JSON.assertArray]
      exact ⟨fun _ => Or.inr (Or.inl (fun xs h => by cases h)), fun _ => trivial⟩
    | num v =>
      simp only [JSON.assertArray]
      exact ⟨fun _ => Or.inr (Or.inl (fun xs h => by cases h)), fun _ => trivial⟩
    | str v =>
      simp only [JSON.assertArray]
      exact ⟨fun _ => Or.inr (Or.inl (fun xs h => by cases h)), fun _ => trivial⟩
    | obj v =>
      simp only [JSON.assertArray]
      exact ⟨fun _ => Or.inr (Or.inl (fun xs h => by cases h)), fun _ => trivial⟩
  · intro first rest hidx hwf
    obtain ⟨r, hr, hc⟩ := recordFromItem_of_wellFormed first hwf
    refine ⟨r, ?_, hc⟩
    simp only [hidx, JSON.assertArray, hr]

/-- C3, amended, on a `200 OK` response holding the stored record of the test:
the lookup returns that record. -/
theorem C3_lookup_result_witness :
    testConfig.Validate = none ∧
    testLib.Unmarshal wellFormedBody = Except.ok wellFormedMap ∧
    (GetDNSRecordByName (constNet (httpOK wellFormedBody)) testLib testConfig
      "test.test-domain.com".toList unitWorld).1 = Outcome.ok storedTestRecord ∧
    (((GetDNSRecordByName (constNet (httpOK wellFormedBody)) testLib testConfig
        "test.test-domain.com".toList unitWorld).1
        = Outcome.error (notFoundError "test.test-domain.com".toList) ↔
      (wellFormedMap.find? (fun kv => decide (kv.1 = "result".toList)) = none ∨
       (∀ xs, wellFormedMap.index "result".toList ≠ JSON.arr xs) ∨
       wellFormedMap.index "result".toList = JSON.arr [])) ∧
    (∀ first rest, wellFormedMap.index "result".toList = JSON.arr (first :: rest) →
      wellFormedItem first →
      ∃ r, (GetDNSRecordByName (constNet (httpOK wellFormedBody)) testLib testConfig
          "test.test-domain.com".toList unitWorld).1 = Outcome.ok r ∧
        carriesRecord first r)) :=
  ⟨by decide, rfl, by decide,
   C3_lookup_result (constNet (httpOK wellFormedBody)) testLib testConfig
     "test.test-domain.com".toList unitWorld
     (unitWorldAfterGet (getURL testConfig "test.test-domain.com".toList))
     wellFormedBody wellFormedMap (by decide)
     (fun fullName h => by
       have h2 : GetDNSRecordByName_fullName testConfig.DomainName
           "test.test-domain.com".toList = some "test.test-domain.com".toList := by decide
       rw [h2] at h
       cases h
       rfl)
     rfl⟩

/-- C5, the code at failing inputs. Each response is a `200 OK` whose body is
a JSON object with a non-empty array `result`. With a first element lacking
the member `id`, `GetDNSRecordByName` panics and so does `ListDNSRecords`;
with a well-formed first element followed by `null`, `ListDNSRecords` panics.
No error value is returned. -/
theorem C5_malformed_response_panics :
    (GetDNSRecordByName (constNet (httpOK missingIdBody)) testLib testConfig
      "test.test-domain.com".toList unitWorld).1 = Outcome.panic ∧
    (ListDNSRecords (constNet (httpOK missingIdBody)) testLib testConfig unitWorld).1
      = Outcome.panic ∧
    (ListDNSRecords (constNet (httpOK nullSecondBody)) testLib testConfig unitWorld).1
      = Outcome.panic := by
  decide

/-- C6, counterexample: a `200 OK` response whose `result` is an array of one
well-formed record object with `ttl` 1.5: `ListDNSRecords` returns one record,
whose TTL is 1 and not the element's ttl. For a record object with `ttl` 1e30,
which no `int` can hold, the record listed has the least `int`. -/
theorem C6_counterexample :
    testConfig.Validate = none ∧
    testLib.Unmarshal fractionBody = Except.ok fractionMap ∧
    wellFormedItem (itemWithTTL (mkRat 3 2)) ∧
    (ListDNSRecords (constNet (httpOK fractionBody)) testLib testConfig unitWorld).1
      = Outcome.ok [{ storedTestRecord with TTL := 1 }] ∧
    ((1 : Int) : ℚ) ≠ mkRat 3 2 ∧
    (ListDNSRecords (constNet (httpOK [])) (fixedLib hugeMap) testConfig unitWorld).1
      = Outcome.ok [{ storedTestRecord with TTL := minInt }] ∧
    ((minInt : Int) : ℚ) ≠ hugeTTL :=
  ⟨by decide, rfl,
   ⟨⟨_, rfl⟩, ⟨_, rfl⟩, ⟨_, rfl⟩, ⟨_, rfl⟩, ⟨_, rfl⟩, ⟨_, rfl⟩, ⟨_, rfl⟩⟩,
   by decide, by decide, by decide, by decide⟩

/-- C6, amended: for a valid configuration and a 2xx response whose body
decodes to a JSON object `m`, `ListDNSRecords` returns an empty sequence and
no error when `result` is absent or an empty array; when `result` is an array
of `n` well-formed record objects it returns exactly `n` records, the `i`-th
with the id, name, type, content and proxied of the `i`-th element and, when
the element's ttl lies within the range of `int`, with that ttl, its fraction
discarded. -/
theorem C6_list_result {σ : Type} (net : Net σ) (lib : JSONLib)
    (config : Config) (w w1 : World σ) (b : Str) (m : GoMap)
    (hv : config.Validate = none)
    (hresp : makeRequest net config "GET".toList (listURL config) none w = (Outcome.ok b, w1))
    (hjson : lib.Unmarshal b = Except.ok m) :
    ((m.find? (fun kv => decide (kv.1 = "result".toList)) = none ∨
        m.index "result".toList = JSON.arr []) →
      (ListDNSRecords net lib config w).1 = Outcome.ok []) ∧
    (∀ items, m.index "result".toList = JSON.arr items →
      (∀ item ∈ items, wellFormedItem item) →
      ∃ records, (ListDNSRecords net lib config w).1 = Outcome.ok records ∧
        records.length = items.length ∧
        ∀ i (hi : i < items.length) (hr : i < records.length),
          carriesRecord (items.get ⟨i, hi⟩) (records.get ⟨i, hr⟩)) := by
  rw [ListDNSRecords_of_response net lib config w w1 b m hv hresp hjson]
  constructor
  · intro h
    rcases h with h | h
    · rw [index_of_find_none m _ h]
      rfl
    · rw [h]
      rfl
  · intro items hidx hwf
    rw [hidx]
    cases items with
    | nil => exact ⟨[], rfl, rfl, fun i hi => absurd hi (Nat.not_lt_zero i)⟩
    | cons first rest =>
      obtain ⟨records, hrs, hall⟩ := convertItems_of_wellFormed (first :: rest) hwf
      refine ⟨records, ?_, hall.length_eq.symm, fun i hi hr => hall.get hi hr⟩
      simp only [JSON.assertArray, hrs]

/-- C6, amended, on a `200 OK` response holding the stored record of the
test: the listing is that one record. -/
theorem C6_list_result_witness :
    testConfig.Validate = none ∧
    testLib.Unmarshal wellFormedBody = Except.ok wellFormedMap ∧
    (ListDNSRecords (constNet (httpOK wellFormedBody)) testLib testConfig unitWorld).1
      = Outcome.ok [storedTestRecord] ∧
    (((wellFormedMap.find? (fun kv => decide (kv.1 = "result".toList)) = none ∨
        wellFormedMap.index "result".toList = JSON.arr []) →
      (ListDNSRecords (constNet (httpOK wellFormedBody)) testLib testConfig unitWorld).1
        = Outcome.ok []) ∧
    (∀ items, wellFormedMap.index "result".toList = JSON.arr items →
      (∀ item ∈ items, wellFormedItem item) →
      ∃ records, (ListDNSRecords (constNet (httpOK wellFormedBody)) testLib testConfig
          unitWorld).1 = Outcome.ok records ∧
        records.length = items.length ∧
        ∀ i (hi : i < items.length) (hr : i < records.length),
          carriesRecord (items.get ⟨i, hi⟩) (records.get ⟨i, hr⟩))) :=
  ⟨by decide, rfl, by decide,
   C6_list_result (constNet (httpOK wellFormedBody)) testLib testConfig unitWorld
     (unitWorldAfterGet (listURL testConfig)) wellFormedBody wellFormedMap
     (by decide) rfl rfl⟩

/-! ## Create, then get by name, against the mock server (C2) -/

theorem mockHandler_post (lib : JSONLib) (records : MockRecords) (q : Str)
    (header : List (Str × Str)) (body : Str)
    (hauth : headerGet header "Authorization".toList = "Bearer test-token".toList) :
    mockHandler lib records "POST".toList "/client/v4/zones/test-zone-id/dns_records".toList
        q header body
      = (httpOK (lib.Encode (mockEnvelope (recordJSON (mockStored (lib.UnmarshalRecord body))))),
         records.set (mockStored (lib.UnmarshalRecord body)).ID
           (mockStored (lib.UnmarshalRecord body))) := by
  unfold mockHandler
  rw [if_neg (not_not.mpr hauth), if_pos ⟨rfl, rfl⟩]
  unfold mockStored
  by_cases hid : (lib.UnmarshalRecord body).ID = "".toList
  · simp only [hid, if_true]
  · simp only [hid, if_false]

theorem mockHandler_get_name (lib : JSONLib) (records : MockRecords) (q : Str)
    (header : List (Str × Str)) (body : Str)
    (hauth : headerGet header "Authorization".toList = "Bearer test-token".toList)
    (hq : q ≠ []) :
    mockHandler lib records "GET".toList "/client/v4/zones/test-zone-id/dns_records".toList
        q header body
      = match records.find? (fun kv => decide (kv.2.Name = q)) with
        | some kv =>
          (httpOK (lib.Encode (mockEnvelope (JSON.arr [recordJSON kv.2]))), records)
        | none => (httpOK (lib.Encode (mockEnvelope JSON.null)), records) := by
  unfold mockHandler
  rw [if_neg (not_not.mpr hauth), if_neg (by decide), if_neg (by decide), if_neg (by decide),
    if_pos ⟨rfl, rfl⟩, empty_toList, if_pos hq]

/-- The record object the JSON encoder writes for a record that has an ID is
read back as that record, its TTL passing through the conversion to `int`. -/
theorem recordFromItem_recordJSON (r : DNSRecord) (hid : r.ID ≠ []) :
    recordFromItem (recordJSON r) = some { r with TTL := goInt (r.TTL : ℚ) } := by
  unfold recordJSON
  rw [empty_toList, if_neg hid]
  simp [recordFromItem, JSON.assertMap, GoMap.index, List.find?, JSON.assertString,
    JSON.assertFloat64, JSON.assertBool]

theorem mockStored_ID_ne (record : DNSRecord) : (mockStored record).ID ≠ [] := by
  unfold mockStored
  rw [empty_toList]
  by_cases h : record.ID = []
  · simp [h]
  · simp [h]

theorem mem_set (records : MockRecords) (key : Str) (value : DNSRecord) :
    (key, value) ∈ records.set key value ∧
    ∀ kv ∈ records.set key value, kv = (key, value) ∨ (kv ∈ records ∧ kv.1 ≠ key) := by
  unfold MockRecords.set
  by_cases hany : records.any (fun kv => decide (kv.1 = key)) = true
  · rw [if_pos hany]
    constructor
    · obtain ⟨kv0, hmem, hk⟩ := List.any_eq_true.mp hany
      rw [List.mem_map]
      refine ⟨kv0, hmem, ?_⟩
      rw [if_pos (of_decide_eq_true hk)]
    · intro kv hkv
      obtain ⟨kv0, hmem, hf⟩ := List.mem_map.mp hkv
      by_cases hk : kv0.1 = key
      · rw [if_pos hk] at hf
        exact Or.inl hf.symm
      · rw [if_neg hk] at hf
        subst hf
        exact Or.inr ⟨hmem, hk⟩
  · rw [if_neg hany]
    constructor
    · exact List.mem_append_right _ (List.mem_singleton_self _)
    · intro kv hkv
      rcases List.mem_append.mp hkv with h | h
      · refine Or.inr ⟨h, fun hk => hany ?_⟩
        exact List.any_eq_true.mpr ⟨kv, h, decide_eq_true hk⟩
      · exact Or.inl (List.mem_singleton.mp h)

theorem find_after_set (records : MockRecords) (stored : DNSRecord) (N : Str)
    (hN : stored.Name = N)
    (hfresh : ∀ kv ∈ records, kv.2.Name = N → kv.1 = stored.ID) :
    ∃ kv, (records.set stored.ID stored).find? (fun kv => decide (kv.2.Name = N)) = some kv ∧
      kv.2 = stored := by
  obtain ⟨hin, hall⟩ := mem_set records stored.ID stored
  cases hf : (records.set stored.ID stored).find? (fun kv => decide (kv.2.Name = N)) with
  | none =>
    have := List.find?_eq_none.mp hf (stored.ID, stored) hin
    simp [hN] at this
  | some kv =>
    refine ⟨kv, rfl, ?_⟩
    have hp := List.find?_some hf
    have hmem := List.mem_of_find?_eq_some hf
    rcases hall kv hmem with h | ⟨h1, h2⟩
    · rw [h]
    · exact absurd (hfresh kv h1 (of_decide_eq_true hp)) h2

theorem makeRequest_mock_ok (lib : JSONLib) (urls : URLLib) (config : Config)
    (method url : Str) (body : Option Str) (w : World MockRecords)
    (path name respBody : Str) (records : MockRecords)
    (hnew : urls.NewRequest method url = none)
    (hroute : urls.route url = Route.handler path name)
    (hh : mockHandler lib w.server method path name
        (authRequest config method url body).Header (body.getD [])
      = (httpOK respBody, records)) :
    makeRequest (mockNetWith lib urls) config method url body w
      = (Outcome.ok respBody,
         { server := records, sent := w.sent ++ [authRequest config method url body] }) := by
  have hnew2 : (mockNetWith lib urls).NewRequest method url = none := hnew
  have hu : (authRequest config method url body).URL = url := rfl
  have hm : (authRequest config method url body).Method = method := rfl
  have hb : (authRequest config method url body).Body = body := rfl
  have hdo : (mockNetWith lib urls).Do w.server (authRequest config method url body)
      = (Except.ok (httpOK respBody), records) := by
    simp only [mockNetWith, hu, hm, hb, hroute, hh]
  unfold makeRequest
  simp only [hnew2, hdo]
  simp [httpOK]

theorem auth_header (config : Config) (method url : Str) (body : Option Str)
    (htoken : config.APIToken = "test-token".toList) :
    headerGet (authRequest config method url body).Header "Authorization".toList
      = "Bearer test-token".toList := by
  simp only [authRequest, headerGet, htoken]
  decide

theorem validate_of_fields (config : Config) (h1 : config.APIToken ≠ [])
    (h2 : config.ZoneID ≠ []) (h3 : config.DomainName ≠ []) : config.Validate = none := by
  unfold Config.Validate
  rw [empty_toList, if_neg h1, if_neg h2, if_neg h3]

/-- C2, amended: against the mock server of the test, for a valid
configuration with the server's token and domain `D`, and a record whose name
`N` ends with `"." + D`. Suppose the URL library delivers the create request
to the server's create route, and the lookup request to its list route with
the value of `name` read back as `N`; the JSON library carries the record to
the server unchanged and decodes the server's answer to the value the server
encoded; and no record stored under another ID has the name `N`. Then
`CreateDNSRecord` succeeds, and after it `GetDNSRecordByName(N)` succeeds and
returns a record with name `N` and the type and content of the record
created. -/
theorem C2_create_then_get (lib : JSONLib) (urls : URLLib) (config : Config)
    (record : DNSRecord) (w : World MockRecords) (data : Str)
    (htoken : config.APIToken = "test-token".toList)
    (hzone : config.ZoneID ≠ [])
    (hD : config.DomainName ≠ [])
    (hname : (".".toList ++ config.DomainName) <:+ record.Name)
    (hpostNew : urls.NewRequest "POST".toList (listURL config) = none)
    (hpost : ∃ q, urls.route (listURL config)
      = Route.handler "/client/v4/zones/test-zone-id/dns_records".toList q)
    (hgetNew : urls.NewRequest "GET".toList (getURL config record.Name) = none)
    (hget : urls.route (getURL config record.Name)
      = Route.handler "/client/v4/zones/test-zone-id/dns_records".toList record.Name)
    (hmarshal : lib.Marshal record = Except.ok data)
    (hunmarshal : lib.UnmarshalRecord data = record)
    (hdecode : lib.Unmarshal
        (lib.Encode (mockEnvelope (JSON.arr [recordJSON (mockStored record)])))
      = Except.ok (mockFoundMap (mockStored record)))
    (hfresh : ∀ kv ∈ w.server, kv.2.Name = record.Name → kv.1 = (mockStored record).ID) :
    (CreateDNSRecord (mockNetWith lib urls) lib config record w).err = Outcome.ok () ∧
    ∃ r, (GetDNSRecordByName (mockNetWith lib urls) lib config record.Name
        (CreateDNSRecord (mockNetWith lib urls) lib config record w).world).1
        = Outcome.ok r ∧
      r.Name = record.Name ∧ r.Type_ = record.Type_ ∧ r.Content = record.Content := by
  have hv : config.Validate = none :=
    validate_of_fields config (by rw [htoken]; decide) hzone hD
  obtain ⟨q, hpost⟩ := hpost
  -- the POST request
  have hreq1 := makeRequest_mock_ok lib urls config "POST".toList (listURL config)
    (some data) w "/client/v4/zones/test-zone-id/dns_records".toList q
    (lib.Encode (mockEnvelope (recordJSON (mockStored (lib.UnmarshalRecord data)))))
    (w.server.set (mockStored (lib.UnmarshalRecord data)).ID
      (mockStored (lib.UnmarshalRecord data)))
    hpostNew hpost
    (mockHandler_post lib w.server _ _ _ (auth_header config _ _ _ htoken))
  rw [hunmarshal] at hreq1
  unfold listURL at hreq1
  have hcreate : CreateDNSRecord (mockNetWith lib urls) lib config record w
      = { err := Outcome.ok (), record := record,
          world := { server := w.server.set (mockStored record).ID (mockStored record),
                     sent := w.sent ++ [authRequest config "POST".toList
                       (config.BaseURL ++ "/zones/".toList ++ config.ZoneID
                         ++ "/dns_records".toList) (some data)] } } := by
    unfold CreateDNSRecord
    simp only [hv, hmarshal, hreq1]
  rw [hcreate]
  refine ⟨rfl, ?_⟩
  -- the GET request
  have hNne : record.Name ≠ [] := by
    intro h
    have hle := suffix_length_le hname
    rw [h] at hle
    simp [dot_toList] at hle
  have hfull : GetDNSRecordByName_fullName config.DomainName record.Name = some record.Name := by
    rw [GetDNSRecordByName_fullName_eq_add, addCmd_fullName_eq _ _ hD, if_pos hname]
  obtain ⟨kv, hfind, hkv⟩ := find_after_set w.server (mockStored record) record.Name rfl hfresh
  have hreq2 := makeRequest_mock_ok lib urls config "GET".toList
    (getURL config record.Name) none
    { server := w.server.set (mockStored record).ID (mockStored record),
      sent := w.sent ++ [authRequest config "POST".toList
        (config.BaseURL ++ "/zones/".toList ++ config.ZoneID ++ "/dns_records".toList)
        (some data)] }
    "/client/v4/zones/test-zone-id/dns_records".toList record.Name
    (lib.Encode (mockEnvelope (JSON.arr [recordJSON (mockStored record)])))
    (w.server.set (mockStored record).ID (mockStored record))
    hgetNew hget
    (by
      rw [mockHandler_get_name lib _ _ _ _ (auth_header config _ _ _ htoken) hNne]
      simp only [hfind, hkv])
  have hnf := GetDNSRecordByName_of_response (mockNetWith lib urls) lib config record.Name
    _ _ _ _ hv
    (fun fullName h => by
      rw [hfull] at h
      cases h
      exact hreq2)
    hdecode
  rw [hnf]
  have hidx : GoMap.index (mockFoundMap (mockStored record)) "result".toList
      = JSON.arr [recordJSON (mockStored record)] := by
    simp [mockFoundMap, GoMap.index, List.find?]
  rw [hidx]
  simp only [JSON.assertArray, recordFromItem_recordJSON _ (mockStored_ID_ne record)]
  exact ⟨_, rfl, rfl, rfl, rfl⟩

/-- C2, amended, on the test itself, with Go's URL library and the concrete
JSON library: the record `"test.test-domain.com"` is created on the empty mock
server and then found by its name. -/
theorem C2_create_then_get_witness :
    (".".toList ++ testConfig.DomainName) <:+ testRecord.Name ∧
    (goURLLib testServerURL).route (getURL testConfig testRecord.Name)
      = Route.handler "/client/v4/zones/test-zone-id/dns_records".toList testRecord.Name ∧
    testLib.UnmarshalRecord (wireEncode (recordJSON testRecord)) = testRecord ∧
    (GetDNSRecordByName (mockNet testLib testServerURL) testLib testConfig testRecord.Name
        (CreateDNSRecord (mockNet testLib testServerURL) testLib testConfig testRecord
          testWorld).world).1 = Outcome.ok storedTestRecord ∧
    ((CreateDNSRecord (mockNet testLib testServerURL) testLib testConfig testRecord
        testWorld).err = Outcome.ok () ∧
     ∃ r, (GetDNSRecordByName (mockNet testLib testServerURL) testLib testConfig
          testRecord.Name
          (CreateDNSRecord (mockNet testLib testServerURL) testLib testConfig testRecord
            testWorld).world).1 = Outcome.ok r ∧
        r.Name = testRecord.Name ∧ r.Type_ = testRecord.Type_ ∧
        r.Content = testRecord.Content) :=
  ⟨by decide, rfl, by decide, by decide,
   C2_create_then_get testLib (goURLLib testServerURL) testConfig testRecord testWorld
     (wireEncode (recordJSON testRecord)) rfl (by decide) (by decide) (by decide)
     (by decide) ⟨[], rfl⟩ (by decide) rfl rfl (by decide) rfl
     (fun kv hkv => absurd hkv (List.not_mem_nil kv))⟩

/-- C2, counterexample: with the configuration of the test (domain
`"test-domain.com"`), the record named `"www"` is created on the empty mock
server, which stores it under the name `"www"`; `GetDNSRecordByName("www")`
then asks the server for `"www.test-domain.com"` and fails with the not-found
error. Moreover, when the server already holds a record of the same name
under another ID and its `range` visits that one first, the lookup after the
create returns the older record, of another type and content. And for the
name `"a&b.test-domain.com"`, which ends with `"." + D`, the lookup puts the
name into the URL as it is, the server reads the value of `name` as `"a"`,
and the lookup fails with the not-found error. -/
theorem C2_counterexample :
    testConfig.Validate = none ∧
    (CreateDNSRecord (mockNet testLib testServerURL) testLib testConfig wwwRecord
        testWorld).err = Outcome.ok () ∧
    (CreateDNSRecord (mockNet testLib testServerURL) testLib testConfig wwwRecord
        testWorld).world.server
      = [("test-record-id".toList, { wwwRecord with ID := "test-record-id".toList })] ∧
    (GetDNSRecordByName (mockNet testLib testServerURL) testLib testConfig "www".toList
        (CreateDNSRecord (mockNet testLib testServerURL) testLib testConfig wwwRecord
          testWorld).world).1 = Outcome.error (notFoundError "www".toList) ∧
    ((GetDNSRecordByName (mockNet testLib testServerURL) testLib testConfig "www".toList
        (CreateDNSRecord (mockNet testLib testServerURL) testLib testConfig wwwRecord
          testWorld).world).2.sent.map (fun req => (req.Method, req.URL)))
      = [("POST".toList,
          "http://127.0.0.1:8080/client/v4/zones/test-zone-id/dns_records".toList),
         ("GET".toList,
          ("http://127.0.0.1:8080/client/v4/zones/test-zone-id/dns_records"
            ++ "?name=www.test-domain.com").toList)] ∧
    (CreateDNSRecord (mockNet testLib testServerURL) testLib testConfig testRecord
        otherWorld).err = Outcome.ok () ∧
    (GetDNSRecordByName (mockNet testLib testServerURL) testLib testConfig
        "test.test-domain.com".toList
        (CreateDNSRecord (mockNet testLib testServerURL) testLib testConfig testRecord
          otherWorld).world).1 = Outcome.ok otherRecord ∧
    (".".toList ++ testConfig.DomainName) <:+ ampRecord.Name ∧
    (CreateDNSRecord (mockNet testLib testServerURL) testLib testConfig ampRecord
        testWorld).err = Outcome.ok () ∧
    (goURLLib testServerURL).route (getURL testConfig ampRecord.Name)
      = Route.handler "/client/v4/zones/test-zone-id/dns_records".toList "a".toList ∧
    (GetDNSRecordByName (mockNet testLib testServerURL) testLib testConfig ampRecord.Name
        (CreateDNSRecord (mockNet testLib testServerURL) testLib testConfig ampRecord
          testWorld).world).1 = Outcome.error (notFoundError ampRecord.Name) :=
  ⟨by decide, by decide, by decide, by decide, by decide, by decide, by decide, by decide,
    by decide, rfl, by decide⟩

/-! ## The display name and the names looked up by delete and update (C11, C12) -/

/-- The rule of delete.go and update.go, in closed form: the suffix is added
unless the subdomain is longer than the domain and ends with it. -/
theorem deleteCmd_fullName_eq (D L : Str) (hD : D ≠ []) :
    deleteCmd_fullName D L =
      some (if D.length < L.length ∧ D <:+ L then L else L ++ ".".toList ++ D) := by
  unfold deleteCmd_fullName
  rw [empty_toList, if_pos hD]
  by_cases hle : len L ≤ len D
  · rw [if_pos hle]
    have hlen : ¬ D.length < L.length := by unfold len at hle; omega
    rw [if_neg (fun h => hlen h.1)]
  · rw [if_neg hle]
    have hlen : D.length < L.length := by unfold len at hle; omega
    have h1 : sliceFrom L (len L - len D) = some (List.drop (L.length - D.length) L) :=
      sliceFrom_sub L D.length (Nat.le_of_lt hlen)
    rw [h1]
    dsimp only
    by_cases hs : D <:+ L
    · rw [if_neg (not_not.mpr ((drop_eq_iff_suffix L D).mpr hs)), if_pos ⟨hlen, hs⟩]
    · rw [if_pos (fun h => hs ((drop_eq_iff_suffix L D).mp h)), if_neg (fun h => hs h.2)]

theorem updateCmd_fullName_eq_delete (D L : Str) :
    updateCmd_fullName D L = deleteCmd_fullName D L := rfl

theorem dot_suffix_imp (D L : Str) (h : (".".toList ++ D) <:+ L) :
    D.length < L.length ∧ D <:+ L := by
  constructor
  · have hle := suffix_length_le h
    simp [dot_toList] at hle
    omega
  · exact (List.suffix_append _ _).trans h

/-- The name `GetDNSRecordByName` asks for, given the name the delete command
passes to it, is the name the add command builds. -/
theorem lookup_after_delete_rule (D L : Str) (hD : D ≠ []) :
    ∃ n, deleteCmd_fullName D L = some n ∧
      GetDNSRecordByName_fullName D n = addCmd_fullName D L := by
  rw [deleteCmd_fullName_eq D L hD]
  by_cases h : D.length < L.length ∧ D <:+ L
  · rw [if_pos h]
    exact ⟨L, rfl, GetDNSRecordByName_fullName_eq_add D L⟩
  · rw [if_neg h]
    refine ⟨L ++ ".".toList ++ D, rfl, ?_⟩
    have hns : ¬ (".".toList ++ D) <:+ L := fun hs => h (dot_suffix_imp D L hs)
    have hsuf : (".".toList ++ D) <:+ (L ++ ".".toList ++ D) := by
      rw [List.append_assoc]
      exact List.suffix_append _ _
    rw [GetDNSRecordByName_fullName_eq_add, addCmd_fullName_eq D _ hD, if_pos hsuf,
      addCmd_fullName_eq D L hD, if_neg hns]

/-- C11, the code at the failing input: with `D = "example.com"` the record
name `N = "notexample.com"` ends with `D` but not with `"." + D`; the list
command displays `"no"`, which is neither `N` nor a string `S` with
`S + "." + D = N`. -/
theorem C11_display_strips_without_dot :
    listCmd_displayName "example.com".toList "notexample.com".toList = some "no".toList ∧
    "no".toList ≠ "notexample.com".toList ∧
    "no".toList ++ ".".toList ++ "example.com".toList ≠ "notexample.com".toList ∧
    ¬ (".".toList ++ "example.com".toList) <:+ "notexample.com".toList := by
  decide

/-- C12: for every subdomain `L` and non-empty base domain `D`, the add
command builds a name `N` for `L`, and the delete command's rule followed by
`GetDNSRecordByName`'s own rule, and likewise the update command's rule
followed by it, yield exactly `N`; none of the computations panics. -/
theorem C12_delete_update_lookup_name (L D : Str) (hD : D ≠ []) :
    ∃ N, addCmd_fullName D L = some N ∧
      (∃ n, deleteCmd_fullName D L = some n ∧ GetDNSRecordByName_fullName D n = some N) ∧
      (∃ n, updateCmd_fullName D L = some n ∧ GetDNSRecordByName_fullName D n = some N) := by
  obtain ⟨n, hn, hget⟩ := lookup_after_delete_rule D L hD
  refine ⟨if (".".toList ++ D) <:+ L then L else L ++ ".".toList ++ D,
    addCmd_fullName_eq D L hD, ⟨n, hn, ?_⟩, ⟨n, ?_, ?_⟩⟩
  · rw [hget, addCmd_fullName_eq D L hD]
  · rw [updateCmd_fullName_eq_delete, hn]
  · rw [hget, addCmd_fullName_eq D L hD]

/-- C12 at `D = "example.com"`, `L = "notexample.com"`: delete and update
pass `"notexample.com"` on, and all three paths end at
`"notexample.com.example.com"`. -/
theorem C12_delete_update_lookup_name_witness :
    "example.com".toList ≠ [] ∧
    addCmd_fullName "example.com".toList "notexample.com".toList
      = some "notexample.com.example.com".toList ∧
    deleteCmd_fullName "example.com".toList "notexample.com".toList
      = some "notexample.com".toList ∧
    updateCmd_fullName "example.com".toList "notexample.com".toList
      = some "notexample.com".toList ∧
    GetDNSRecordByName_fullName "example.com".toList "notexample.com".toList
      = some "notexample.com.example.com".toList ∧
    (∃ N, addCmd_fullName "example.com".toList "notexample.com".toList = some N ∧
      (∃ n, deleteCmd_fullName "example.com".toList "notexample.com".toList = some n ∧
        GetDNSRecordByName_fullName "example.com".toList n = some N) ∧
      (∃ n, updateCmd_fullName "example.com".toList "notexample.com".toList = some n ∧
        GetDNSRecordByName_fullName "example.com".toList n = some N)) :=
  ⟨by decide, by decide, by decide, by decide, by decide,
    C12_delete_update_lookup_name "notexample.com".toList "example.com".toList (by decide)⟩

end Cloudflare
